import Mathlib

/-!
Verification development for the luxury travel itinerary PDF generator.

The layout engine is shallowly embedded: coordinates, sizes and colors are
rationals, a font is its text-measurement function, and drawing on a page is
modelled by accumulating a list of draw operations tagged with a page index.
Definitions mirror the TypeScript source (`layout-primitives.ts`, the section
renderers, the field-mapper orchestrator and the form component); theorems
establish the documented layout properties.
-/

set_option maxRecDepth 10000
set_option linter.unusedVariables false

/-- A font exposes only its width-measurement capability
(`font.widthOfTextAtSize(text, size)` in pdf-lib). -/
structure PDFFont where
  widthOfTextAtSize : String → ℚ → ℚ

/-- An embedded image: pdf-lib's `image.scale(1)` yields these dimensions. -/
structure PDFImage where
  width : ℚ
  height : ℚ
deriving Repr, DecidableEq

/-- RGB color in the 0–1 range, as produced by pdf-lib's `rgb`. -/
structure Color where
  red : ℚ
  green : ℚ
  blue : ℚ
deriving Repr, DecidableEq

/-- The colors from `luxury-design-config.ts` that the embedded renderers use. -/
def LUXURY_COLORS.darkBackground : Color := ⟨8/100, 8/100, 8/100⟩

def LUXURY_COLORS.gold : Color := ⟨72/100, 53/100, 18/100⟩

def LUXURY_COLORS.white : Color := ⟨1, 1, 1⟩

def LUXURY_COLORS.textDark : Color := ⟨2/10, 2/10, 2/10⟩

def LUXURY_COLORS.textMuted : Color := ⟨6/10, 6/10, 6/10⟩

/-- One recorded drawing operation. Each operation carries the index of the
page it was issued against. Fonts and stroke thickness are not recorded:
no verified property depends on them. -/
inductive DrawOp where
  | text (page : ℕ) (s : String) (x y size : ℚ) (color : Color)
  | rect (page : ℕ) (x y width height : ℚ) (color : Option Color)
  | line (page : ℕ) (x1 y1 x2 y2 : ℚ) (color : Color)
  | circle (page : ℕ) (x y size : ℚ) (color : Color)
  | image (page : ℕ) (x y width height : ℚ)
deriving Repr, DecidableEq

/-- Text alignment option of `drawWrappedText`. -/
inductive TextAlign where
  | left
  | center
  | right
deriving Repr, DecidableEq

/-- Characters matched by the JavaScript `\s` regex class (whitespace and
line terminators), used for the `\s+` collapse and `trim` steps of
`sanitizeTextForPdf`. -/
def isJsWhitespace (c : Char) : Bool :=
  c = ' ' || c = '\t' || c = '\n' || c = '\r' ||
  c.val = 0x0b || c.val = 0x0c || c.val = 0xa0 || c.val = 0x1680 ||
  (0x2000 ≤ c.val && c.val ≤ 0x200a) ||
  c.val = 0x2028 || c.val = 0x2029 || c.val = 0x202f || c.val = 0x205f ||
  c.val = 0x3000 || c.val = 0xfeff

/-- Replace every maximal run of characters matched by `p` with a single
`repl` character (the JS `.replace(/X+/g, "Y")` pattern). -/
def collapseRuns (p : Char → Bool) (repl : Char) (cs : List Char) : List Char :=
  ((cs.foldl (fun (acc : List Char × Bool) c =>
      if p c then (if acc.2 then acc else (repl :: acc.1, true))
      else (c :: acc.1, false)) ([], false)).1).reverse

/-- The single-character replacements of `sanitizeTextForPdf`: arrows, smart
quotes (U+201C/D, U+2018/9), en/em dashes (U+2013/4), ellipsis (U+2026) and
the rupee sign (U+20B9). Unmatched characters pass through. -/
def replaceSpecialChar (c : Char) : List Char :=
  if c.val = 0x2192 then ['-', '>']
  else if c.val = 0x2190 then ['<', '-']
  else if c.val = 0x2191 then ['^']
  else if c.val = 0x2193 then ['v']
  else if c.val = 0x2194 then ['<', '-', '>']
  else if c.val = 0x201c || c.val = 0x201d then ['"']
  else if c.val = 0x2018 || c.val = 0x2019 then ['\'']
  else if c.val = 0x2013 || c.val = 0x2014 then ['-']
  else if c.val = 0x2026 then ['.', '.', '.']
  else if c.val = 0x20b9 then ['R', 's', '.']
  else [c]

/-- The three-character dirham sequence (U+062F '.' U+0625) becomes `"AED "`. -/
def replaceDirham : List Char → List Char
  | c1 :: c2 :: c3 :: rest =>
    if c1.val = 0x62f ∧ c2 = '.' ∧ c3.val = 0x625 then
      'A' :: 'E' :: 'D' :: ' ' :: replaceDirham rest
    else c1 :: replaceDirham (c2 :: c3 :: rest)
  | cs => cs

/-- Drop leading and trailing JS whitespace (`String.prototype.trim`). -/
def jsTrim (cs : List Char) : List Char :=
  ((cs.dropWhile isJsWhitespace).reverse.dropWhile isJsWhitespace).reverse

/-- Split a character list at every space, keeping empty segments
(the semantics of JavaScript's `text.split(" ")`). -/
def splitOnSpaceAux : List Char → List Char → List String
  | [], acc => [String.mk acc.reverse]
  | c :: rest, acc =>
    if c = ' ' then String.mk acc.reverse :: splitOnSpaceAux rest []
    else splitOnSpaceAux rest (c :: acc)

/-- JavaScript's `text.split(" ")`. -/
def jsSplitOnSpace (s : String) : List String :=
  splitOnSpaceAux s.data []

/-- `sanitizeTextForPdf` from `layout-primitives.ts`: collapse newline runs,
replace arrows / smart punctuation / unsupported currency symbols, collapse
all whitespace runs to single spaces, and trim. -/
def sanitizeTextForPdf (text : String) : String :=
  let s1 := collapseRuns (fun c => c = '\r' || c = '\n') ' ' text.data
  let s2 := (s1.map replaceSpecialChar).flatten
  let s3 := replaceDirham s2
  let s4 := collapseRuns isJsWhitespace ' ' s3
  String.mk (jsTrim s4)

/-- One step of the line-building `forEach` inside `drawWrappedText`:
try to extend the current line with the next word; on overflow of a
non-empty line, commit it and start the next line with the word. -/
def wrapStepDraw (font : PDFFont) (fontSize maxWidth : ℚ)
    (st : List String × String) (word : String) : List String × String :=
  let testLine := if st.2 = "" then word else st.2 ++ " " ++ word
  let testWidth := font.widthOfTextAtSize testLine fontSize
  if maxWidth < testWidth ∧ st.2 ≠ "" then (st.1 ++ [st.2], word) else (st.1, testLine)

/-- The line-building loop of `drawWrappedText` (words are the result of
splitting the sanitized text on single spaces). -/
def wrapLinesDraw (font : PDFFont) (fontSize maxWidth : ℚ) (words : List String) :
    List String :=
  let r := words.foldl (wrapStepDraw font fontSize maxWidth) ([], "")
  if r.2 = "" then r.1 else r.1 ++ [r.2]

/-- One step of the line-building `forEach` inside `calculateWrappedTextHeight`;
textually identical to the loop inside `drawWrappedText` (the source
duplicates the loop rather than sharing it). -/
def wrapStepCalc (font : PDFFont) (fontSize maxWidth : ℚ)
    (st : List String × String) (word : String) : List String × String :=
  let testLine := if st.2 = "" then word else st.2 ++ " " ++ word
  let testWidth := font.widthOfTextAtSize testLine fontSize
  if maxWidth < testWidth ∧ st.2 ≠ "" then (st.1 ++ [st.2], word) else (st.1, testLine)

/-- The line-building loop of `calculateWrappedTextHeight`. -/
def wrapLinesCalc (font : PDFFont) (fontSize maxWidth : ℚ) (words : List String) :
    List String :=
  let r := words.foldl (wrapStepCalc font fontSize maxWidth) ([], "")
  if r.2 = "" then r.1 else r.1 ++ [r.2]

/-- The X at which a line is drawn, after the alignment adjustment of
`drawWrappedText`. -/
def wrappedTextX (x maxWidth : ℚ) (font : PDFFont) (fontSize : ℚ)
    (align : TextAlign) (line : String) : ℚ :=
  match align with
  | TextAlign.left => x
  | TextAlign.center => x + (maxWidth - font.widthOfTextAtSize line fontSize) / 2
  | TextAlign.right => x + maxWidth - font.widthOfTextAtSize line fontSize

/-- The drawing `forEach` of `drawWrappedText`: a line is skipped (no draw,
no cursor move) once the cursor has passed below a positive `minY`;
otherwise it is drawn at the cursor (with alignment applied) and the cursor
moves down by one line spacing. -/
def drawWrappedTextLoop (page : ℕ) (x maxWidth : ℚ) (font : PDFFont)
    (fontSize : ℚ) (color : Color) (lineSpacing minY : ℚ) (align : TextAlign)
    (st : List DrawOp × ℚ) (line : String) : List DrawOp × ℚ :=
  if 0 < minY ∧ st.2 < minY then st
  else
    (st.1 ++ [DrawOp.text page line (wrappedTextX x maxWidth font fontSize align line)
      st.2 fontSize color], st.2 - lineSpacing)

/-- `drawWrappedText` from `layout-primitives.ts`: sanitize, split on spaces,
build wrapped lines greedily, then draw them downward from `y`, honouring the
optional `minY` floor. Returns the emitted draw operations and the final
cursor Y. -/
def drawWrappedText (page : ℕ) (text : String) (x y maxWidth : ℚ)
    (font : PDFFont) (fontSize : ℚ) (color : Color) (lineHeight : ℚ)
    (align : TextAlign) (minY : ℚ) : List DrawOp × ℚ :=
  let cleanText := sanitizeTextForPdf text
  let words := jsSplitOnSpace cleanText
  let lines := wrapLinesDraw font fontSize maxWidth words
  let lineSpacing := fontSize * lineHeight
  lines.foldl (drawWrappedTextLoop page x maxWidth font fontSize color lineSpacing minY align)
    ([], y)

/-- `calculateWrappedTextHeight` from `layout-primitives.ts`: the wrapped
line count times `fontSize * lineHeight`. -/
def calculateWrappedTextHeight (text : String) (maxWidth : ℚ) (font : PDFFont)
    (fontSize lineHeight : ℚ) : ℚ :=
  let cleanText := sanitizeTextForPdf text
  let words := jsSplitOnSpace cleanText
  let lines := wrapLinesCalc font fontSize maxWidth words
  (lines.length : ℚ) * fontSize * lineHeight

/-- One step of greedy word-wrap as the specification describes it: a word is
appended to the current line when the extended line still measures within
`maxWidth`; otherwise the current line is committed and the word starts the
next line; a single word wider than `maxWidth` is placed alone on its own
line. Compared against the source loops in the refinement theorem. -/
def specWrapStep (font : PDFFont) (fontSize maxWidth : ℚ)
    (st : List String × String) (word : String) : List String × String :=
  if st.2 = "" then
    if maxWidth < font.widthOfTextAtSize word fontSize then (st.1 ++ [word], "")
    else (st.1, word)
  else
    let extended := st.2 ++ " " ++ word
    if font.widthOfTextAtSize extended fontSize ≤ maxWidth then (st.1, extended)
    else if maxWidth < font.widthOfTextAtSize word fontSize then
      (st.1 ++ [st.2, word], "")
    else (st.1 ++ [st.2], word)

/-- Greedy word-wrap exactly as worded in the specification (the comparison
point for the source's duplicated wrap loops). -/
def specGreedyWrap (font : PDFFont) (fontSize maxWidth : ℚ)
    (words : List String) : List String :=
  let r := words.foldl (specWrapStep font fontSize maxWidth) ([], "")
  if r.2 = "" then r.1 else r.1 ++ [r.2]

/-- The page/cursor manager (`PageManager` in `layout-primitives.ts`).
The PDF document is modelled by the accumulated operations plus a counter of
allocated pages; the `onNewPage` hook is the caller-supplied page-redraw
callback, recorded both by its emitted operations and in `hookCalls`. -/
structure PageManager where
  currentPage : ℕ
  nextPageId : ℕ
  currentY : ℚ
  pageWidth : ℚ
  pageHeight : ℚ
  marginTop : ℚ
  marginBottom : ℚ
  backgroundColor : Color
  onNewPage : Option (ℕ → List DrawOp)
  ops : List DrawOp
  hookCalls : List ℕ

/-- `drawPageBackground`: a full-page filled rectangle. -/
def drawPageBackground (page : ℕ) (width height : ℚ) (color : Color) : List DrawOp :=
  [DrawOp.rect page 0 0 width height (some color)]

/-- `PageManager.createNewPage`: allocate a page, paint its background,
reset the cursor to `pageHeight - marginTop`, and invoke `onNewPage`. -/
def PageManager.createNewPage (pm : PageManager) : PageManager :=
  let newPage := pm.nextPageId
  let bg := drawPageBackground newPage pm.pageWidth pm.pageHeight pm.backgroundColor
  let hookOps := match pm.onNewPage with
    | some f => f newPage
    | none => []
  let hookCalls := match pm.onNewPage with
    | some _ => pm.hookCalls ++ [newPage]
    | none => pm.hookCalls
  { pm with
      currentPage := newPage
      nextPageId := newPage + 1
      currentY := pm.pageHeight - pm.marginTop
      ops := pm.ops ++ bg ++ hookOps
      hookCalls := hookCalls }

/-- `PageManager.checkAndCreateNewPage`: paginate exactly when the required
height would cross the bottom margin; otherwise a no-op returning `false`. -/
def PageManager.checkAndCreateNewPage (pm : PageManager) (requiredHeight : ℚ) :
    PageManager × Bool :=
  if pm.currentY - requiredHeight < pm.marginBottom then (pm.createNewPage, true)
  else (pm, false)

/-- `PageManager.moveDown`. -/
def PageManager.moveDown (pm : PageManager) (amount : ℚ) : PageManager :=
  { pm with currentY := pm.currentY - amount }

/-- `PageManager.setY`. -/
def PageManager.setY (pm : PageManager) (y : ℚ) : PageManager :=
  { pm with currentY := y }

/-- `PageManager.getY`. -/
def PageManager.getY (pm : PageManager) : ℚ := pm.currentY

/-- `PageManager.getPage` (the handle of the current page). -/
def PageManager.getPage (pm : PageManager) : ℕ := pm.currentPage

/-- `drawBulletPoint`: a filled circle whose bottom-left corner is `(x, y)`. -/
def drawBulletPoint (page : ℕ) (x y size : ℚ) (color : Color) : DrawOp :=
  DrawOp.circle page (x + size / 2) (y + size / 2) (size / 2) color

/-- `drawBulletList` from `layout-primitives.ts`: per item, a bullet glyph
plus an indented wrapped paragraph, then inter-item spacing. -/
def drawBulletList (page : ℕ) (items : List String) (x y maxWidth : ℚ)
    (font : PDFFont) (fontSize : ℚ) (bulletColor textColor : Color)
    (bulletSize bulletIndent lineHeight itemSpacing : ℚ) : List DrawOp × ℚ :=
  items.foldl
    (fun (st : List DrawOp × ℚ) item =>
      let bullet := drawBulletPoint page x (st.2 - bulletSize / 2) bulletSize bulletColor
      let textX := x + bulletIndent
      let textMaxWidth := maxWidth - bulletIndent
      let r := drawWrappedText page item textX st.2 textMaxWidth font fontSize textColor
        lineHeight TextAlign.left 0
      (st.1 ++ [bullet] ++ r.1, r.2 - itemSpacing))
    ([], y)

/-- One iteration of `drawPaginatedBulletList`: measure the item, run the
pagination pre-check, optionally redraw the section title on a fresh page,
then draw the bullet and the wrapped item text. -/
def drawPaginatedBulletListItem (x maxWidth : ℚ) (font : PDFFont) (fontSize : ℚ)
    (bulletColor textColor : Color) (bulletSize bulletIndent lineHeight itemSpacing : ℚ)
    (sectionTitle : Option String) (titleFont : Option PDFFont)
    (titleSize : ℚ) (titleColor : Color) (titleSpacing : ℚ)
    (pm : PageManager) (item : String) : PageManager :=
  let textMaxWidth := maxWidth - bulletIndent
  let itemHeight :=
    calculateWrappedTextHeight item textMaxWidth font fontSize lineHeight + itemSpacing
  let checked := pm.checkAndCreateNewPage (itemHeight + 20)
  let pm1 := checked.1
  let needsNewPage := checked.2
  let pm2 :=
    match needsNewPage, sectionTitle, titleFont with
    | true, some title, some _ =>
      let withTitle := { pm1 with
        ops := pm1.ops ++ [DrawOp.text pm1.currentPage title x pm1.currentY titleSize titleColor] }
      withTitle.moveDown titleSpacing
    | _, _, _ => pm1
  let bullet := drawBulletPoint pm2.currentPage x (pm2.currentY - bulletSize / 2)
    bulletSize bulletColor
  let textX := x + bulletIndent
  let r := drawWrappedText pm2.currentPage item textX pm2.currentY textMaxWidth font
    fontSize textColor lineHeight TextAlign.left 0
  { pm2 with ops := pm2.ops ++ [bullet] ++ r.1, currentY := r.2 - itemSpacing }

/-- `drawPaginatedBulletList` from `layout-primitives.ts`: the paginating
bullet-list renderer, one pre-checked atomic unit per item. -/
def drawPaginatedBulletList (x maxWidth : ℚ) (font : PDFFont) (fontSize : ℚ)
    (bulletColor textColor : Color) (bulletSize bulletIndent lineHeight itemSpacing : ℚ)
    (sectionTitle : Option String) (titleFont : Option PDFFont)
    (titleSize : ℚ) (titleColor : Color) (titleSpacing : ℚ)
    (pm : PageManager) (items : List String) : PageManager :=
  items.foldl
    (drawPaginatedBulletListItem x maxWidth font fontSize bulletColor textColor
      bulletSize bulletIndent lineHeight itemSpacing sectionTitle titleFont
      titleSize titleColor titleSpacing)
    pm

/-- The font family loaded by `font-loader.ts`. -/
structure FontFamily where
  heading : PDFFont
  headingBold : PDFFont
  body : PDFFont
  bodyBold : PDFFont
  bodyItalic : PDFFont

/-- Fixed two-decimal rendering of a rational amount, modelling JavaScript's
`amount.toFixed(2)` (round half away from zero; IEEE-754 double artifacts on
non-representable inputs are not modelled — all verified inputs are exact). -/
def toFixed2 (amount : ℚ) : String :=
  let neg := amount < 0
  let a := |amount| * 100 + 1 / 2
  let n := a.floor.toNat
  let whole := n / 100
  let frac := n % 100
  (if neg then "-" else "") ++ toString whole ++ "." ++
    (if frac < 10 then "0" else "") ++ toString frac

/-- The currency-symbol table of `formatCurrency` in `layout-primitives.ts`
(`symbols[currency] || currency`). -/
def currencySymbol (currency : String) : String :=
  if currency = "USD" then "$"
  else if currency = "EUR" then "€"
  else if currency = "GBP" then "£"
  else if currency = "AED" then "AED "
  else if currency = "INR" then "Rs."
  else currency

/-- `formatCurrency` from `layout-primitives.ts`. -/
def formatCurrency (amount : ℚ) (currency : String) : String :=
  currencySymbol currency ++ toFixed2 amount

/-- `PricingDetails` from `types/itinerary.ts`. -/
structure PricingDetails where
  subtotal : ℚ
  taxes : ℚ
  fees : ℚ
  total : ℚ
  currency : String
deriving Repr, DecidableEq

/-- One row of the pricing table. -/
structure PricingRow where
  label : String
  value : String
  isBold : Bool
deriving Repr, DecidableEq

/-- The `rows` array built inside `renderPricingSection`
(`pricing-section.ts`): the Total Amount row formats the `total` field of
the incoming pricing record. -/
def pricingRows (pricing : PricingDetails) : List PricingRow :=
  [⟨"Subtotal", formatCurrency pricing.subtotal pricing.currency, false⟩,
   ⟨"Taxes", formatCurrency pricing.taxes pricing.currency, false⟩,
   ⟨"Fees", formatCurrency pricing.fees pricing.currency, false⟩,
   ⟨"Total Amount", formatCurrency pricing.total pricing.currency, true⟩]

/-- The per-row drawing of `renderPricingSection`: alternating gray
background, left label, right-aligned value (gold for the final row). -/
def renderPricingRow (page : ℕ) (fonts : FontFamily) (startX sectionWidth rowHeight : ℚ)
    (textColor : Color) (rowCount : ℕ)
    (st : List DrawOp × ℚ × ℕ) (row : PricingRow) : List DrawOp × ℚ × ℕ :=
  let currentY := st.2.1
  let index := st.2.2
  let isTotal := index = rowCount - 1
  let rowColor : Color := if index % 2 = 0 then ⟨85/100, 85/100, 85/100⟩
    else ⟨95/100, 95/100, 95/100⟩
  let size : ℚ := if isTotal then 12 else 11
  let rowFont := if row.isBold then fonts.bodyBold else fonts.body
  let valueWidth := rowFont.widthOfTextAtSize row.value size
  let bg := DrawOp.rect page startX (currentY - rowHeight) sectionWidth rowHeight (some rowColor)
  let labelOp := DrawOp.text page row.label (startX + 20) (currentY - rowHeight / 2 - 5)
    size textColor
  let valueOp := DrawOp.text page row.value (startX + sectionWidth - 20 - valueWidth)
    (currentY - rowHeight / 2 - 5) size
    (if isTotal then LUXURY_COLORS.gold else textColor)
  (st.1 ++ [bg, labelOp, valueOp], currentY - rowHeight, index + 1)

/-- `renderPricingSection` from `pricing-section.ts`: heading, gold header
bar, then the four pricing rows. Returns the operations and the end cursor. -/
def renderPricingSection (page : ℕ) (fonts : FontFamily) (startX startY : ℚ)
    (pricing : PricingDetails) (textColor : Color) : List DrawOp × ℚ :=
  let sectionWidth : ℚ := 412
  let rowHeight : ℚ := 35
  let heading := DrawOp.text page "Pricing Summary" startX startY 18 LUXURY_COLORS.gold
  let y1 := startY - 40
  let goldBar := DrawOp.rect page startX (y1 - rowHeight) sectionWidth rowHeight
    (some LUXURY_COLORS.gold)
  let y2 := y1 - rowHeight
  let rows := pricingRows pricing
  let r := rows.foldl
    (renderPricingRow page fonts startX sectionWidth rowHeight textColor rows.length)
    ([heading, goldBar], y2, 0)
  (r.1, r.2.1 - 30)

/-- `LUXURY_FONT_SIZES.body` from the design configuration. -/
def LUXURY_FONT_SIZES.body : ℚ := 11

/-- `renderInclusionsSection` from `inclusions-section.ts`: gold header, then
either the bullet list or the muted "No inclusions specified" placeholder
(for an empty list), then the section gap. -/
def renderInclusionsSection (page : ℕ) (fonts : FontFamily)
    (startX startY maxWidth : ℚ) (inclusions : List String) : List DrawOp × ℚ :=
  let header := DrawOp.text page "Inclusions" startX startY 36 LUXURY_COLORS.gold
  let y1 := startY - 60
  if inclusions.length > 0 then
    let r := drawBulletList page inclusions (startX + 20) y1 (maxWidth - 40) fonts.body
      LUXURY_FONT_SIZES.body LUXURY_COLORS.gold LUXURY_COLORS.textDark 6 15 (3/2) 10
    (header :: r.1, r.2 - 30)
  else
    let placeholder := DrawOp.text page "No inclusions specified" (startX + 20) y1
      LUXURY_FONT_SIZES.body LUXURY_COLORS.textMuted
    ([header, placeholder], y1 - LUXURY_FONT_SIZES.body * (3/2) - 30)

/-- The inclusions block of the orchestrator (`generateItineraryPDF` in the
field mapper): when the list is non-empty, draw the "Inclusions" header on
the inclusions page manager and run the paginated bullet list; when the list
is empty the entire block is skipped. -/
def inclusionsBlock (fonts : FontFamily) (startX maxWidth : ℚ) (textColor : Color)
    (inclusions : List String) (pm : PageManager) : PageManager :=
  if inclusions.length > 0 then
    let withHeader := { pm with
      ops := pm.ops ++ [DrawOp.text pm.currentPage "Inclusions" startX pm.currentY 36
        LUXURY_COLORS.gold] }
    let pm1 := withHeader.moveDown 60
    drawPaginatedBulletList (startX + 20) (maxWidth - 40) fonts.body 11
      LUXURY_COLORS.gold textColor 6 15 (3/2) 10 (some "Inclusions")
      (some fonts.heading) 36 LUXURY_COLORS.gold 60 pm1 inclusions
  else pm

/-- A subheading of an itinerary day (`DaySubheading` in the types module). -/
structure DaySubheading where
  title : String
  description : String
deriving Repr, DecidableEq

/-- `ItineraryDay` from `types/itinerary.ts`. Optional string fields that
JavaScript tests for truthiness are plain strings here, with `""` playing
the role of absent/falsy. -/
structure ItineraryDay where
  dayNumber : ℕ
  title : String
  activities : String
  subheadings : List DaySubheading
  image : Option String
  hotel : String
deriving Repr, DecidableEq

/-- One word of `renderTextWithDynamicWidth` (`itinerary-section.ts`): the
width budget is recomputed per word (narrow beside the image, full width
below it); committing a line draws it, advances the cursor, and starts a new
page when the cursor drops below 80. State: (manager, local cursor,
current line). -/
def renderTextWithDynamicWidthStep (font : PDFFont) (fontSize : ℚ)
    (textColor : Color) (x narrowWidth fullWidth imageBottomY : ℚ)
    (imagePageRef : ℕ) (lineSpacing : ℚ)
    (st : PageManager × ℚ × String) (word : String) : PageManager × ℚ × String :=
  let pm := st.1
  let currentY := st.2.1
  let currentLine := st.2.2
  let isAboveImage := pm.currentPage = imagePageRef ∧ imageBottomY < currentY
  let currentWidth := if isAboveImage then narrowWidth else fullWidth
  let testLine := if currentLine = "" then word else currentLine ++ " " ++ word
  let testWidth := font.widthOfTextAtSize testLine fontSize
  if currentWidth < testWidth ∧ currentLine ≠ "" then
    let pm1 := { pm with ops := pm.ops ++
      [DrawOp.text pm.currentPage currentLine x currentY fontSize textColor] }
    let y1 := currentY - lineSpacing
    let pm2 := pm1.setY y1
    if y1 < 80 then
      let pm3 := pm2.createNewPage
      (pm3, pm3.currentY, word)
    else (pm2, y1, word)
  else (pm, currentY, testLine)

/-- `renderTextWithDynamicWidth` from `itinerary-section.ts`: word-at-a-time
wrap whose width switches from the narrow column to the full width at the
image boundary; returns the manager and the final Y (which the caller
assigns back with `setY`). -/
def renderTextWithDynamicWidth (font : PDFFont) (fontSize : ℚ)
    (textColor : Color) (x narrowWidth fullWidth imageBottomY : ℚ)
    (imagePageRef : ℕ) (pm : PageManager) (text : String) : PageManager × ℚ :=
  let lineSpacing := fontSize * (199/100)
  let r := (jsSplitOnSpace text).foldl
    (renderTextWithDynamicWidthStep font fontSize textColor x narrowWidth fullWidth
      imageBottomY imagePageRef lineSpacing)
    (pm, pm.currentY, "")
  let pmF := r.1
  let yF := r.2.1
  let lineF := r.2.2
  if lineF ≠ "" then
    ({ pmF with ops := pmF.ops ++
      [DrawOp.text pmF.currentPage lineF x yF fontSize textColor] }, yF - lineSpacing)
  else (pmF, yF)

/-- The `drawItineraryHeader` closure of `generateItineraryPDF`: the running
"Itinerary" header redrawn on each itinerary page. -/
def drawItineraryHeader (fonts : FontFamily) (startX : ℚ) (pm : PageManager) :
    PageManager :=
  ({ pm with ops := pm.ops ++
    [DrawOp.text pm.currentPage "Itinerary" startX pm.currentY 22 LUXURY_COLORS.gold] }).moveDown
    40

/-- The measurement part of a subheading block: title height (15), wrapped
description height at the current width budget (narrow beside the image,
full width below it), and trailing spacing (15). -/
def subheadingRequiredHeight (fonts : FontFamily)
    (leftColumnWidth fullTextWidth imageBottomY : ℚ) (imagePageRef : ℕ)
    (pm : PageManager) (sh : DaySubheading) : ℚ :=
  let currentTextWidth :=
    if pm.currentPage = imagePageRef ∧ imageBottomY < pm.currentY then leftColumnWidth
    else fullTextWidth
  let descHeight :=
    if sh.description ≠ "" then
      calculateWrappedTextHeight sh.description currentTextWidth fonts.body 10 (199/100)
    else 0
  15 + descHeight + 15

/-- The pagination branch of a subheading block: redraw the running header
on the fresh page and stamp the "Day N (continued)" marker. -/
def renderSubheadingMarker (drawHeader : PageManager → PageManager) (dayNumber : ℕ)
    (leftX : ℚ) (pmc : PageManager) : PageManager :=
  let pmh := drawHeader pmc
  let withMarker := { pmh with ops := pmh.ops ++
    [DrawOp.text pmh.currentPage ("Day " ++ toString dayNumber ++ " (continued)")
      leftX pmh.currentY 10 LUXURY_COLORS.gold] }
  withMarker.moveDown 25

/-- The drawing part of a subheading block after the page pre-check: the
title, its dynamic-width description, and the trailing spacing. -/
def renderSubheadingTail (fonts : FontFamily) (textColor : Color)
    (leftX leftColumnWidth fullTextWidth imageBottomY : ℚ) (imagePageRef : ℕ)
    (sh : DaySubheading) (pm1 : PageManager) : PageManager :=
  let withTitle := { pm1 with ops := pm1.ops ++
    [DrawOp.text pm1.currentPage (sanitizeTextForPdf sh.title) leftX pm1.currentY 10
      textColor] }
  let pm2 := withTitle.moveDown 15
  let pm3 :=
    if sh.description ≠ "" then
      let r := renderTextWithDynamicWidth fonts.body 10 textColor leftX leftColumnWidth
        fullTextWidth imageBottomY imagePageRef pm2 (sanitizeTextForPdf sh.description)
      r.1.setY r.2
    else pm2
  pm3.moveDown 15

/-- One subheading block inside `renderPaginatedItineraryDay`: pre-check the
page with the measured height, on pagination redraw the header and the
"Day N (continued)" marker, then draw the subheading title and its
dynamic-width description. -/
def renderSubheadingStep (fonts : FontFamily) (textColor : Color)
    (drawHeader : PageManager → PageManager) (dayNumber : ℕ)
    (leftX leftColumnWidth fullTextWidth imageBottomY : ℚ) (imagePageRef : ℕ)
    (pm : PageManager) (sh : DaySubheading) : PageManager :=
  let checked := pm.checkAndCreateNewPage
    (subheadingRequiredHeight fonts leftColumnWidth fullTextWidth imageBottomY
      imagePageRef pm sh)
  let pm1 :=
    if checked.2 then renderSubheadingMarker drawHeader dayNumber leftX checked.1
    else checked.1
  renderSubheadingTail fonts textColor leftX leftColumnWidth fullTextWidth
    imageBottomY imagePageRef sh pm1

/-- The state in which a day begins: every day except the first gets a fresh
page with the running header redrawn. -/
def dayStartState (drawHeader : PageManager → PageManager) (isFirstDay : Bool)
    (pm : PageManager) : PageManager :=
  if isFirstDay then pm else drawHeader pm.createNewPage

/-- `renderPaginatedItineraryDay` from `itinerary-section.ts`: gold day bar,
day title, subheadings or activities with mid-day pagination, hotel line,
right-column image, divider, and finally the vertical gold accent rule —
drawn on the page that holds the gold bar, down to the current cursor if the
day stayed on one page and down to y = 60 if it overflowed. Returns the
manager and `goldBarY`. The function is written as a chain of named stage
functions, each mirroring one contiguous block of the source. -/
def renderDayBadge (fonts : FontFamily) (day : ItineraryDay) (startX : ℚ)
    (pmA : PageManager) : PageManager × ℚ :=
  let barX : ℚ := startX + 10
  let goldBarY : ℚ := pmA.currentY - 20
  let pmB : PageManager := { pmA with ops := pmA.ops ++
    [DrawOp.rect pmA.currentPage barX goldBarY 75 20 (some LUXURY_COLORS.gold)] }
  let dayText : String := "Day " ++ toString day.dayNumber
  let dayTextWidth : ℚ := fonts.bodyBold.widthOfTextAtSize dayText 9
  let pmC : PageManager := { pmB with ops := pmB.ops ++
    [DrawOp.text pmB.currentPage dayText (barX + (75 - dayTextWidth) / 3)
      (goldBarY + 7) 9 LUXURY_COLORS.white] }
  (pmC.moveDown (20 + 25), goldBarY)

/-- The day title followed by the subheadings/activities body of
`renderPaginatedItineraryDay` (everything between the badge and the hotel
line). `imagePageRef`/`imageStartY` are the page and cursor right after the
badge. -/
def renderDayBody (fonts : FontFamily) (day : ItineraryDay) (textColor : Color)
    (drawHeader : PageManager → PageManager) (leftX imageBottomY : ℚ)
    (imagePageRef : ℕ) (pmD : PageManager) : PageManager :=
  let fullTextWidth : ℚ := 216 + 26 + 225
  let pmE : PageManager := { pmD with ops := pmD.ops ++
    [DrawOp.text pmD.currentPage (sanitizeTextForPdf day.title) leftX pmD.currentY 10
      textColor] }
  let pmF : PageManager := pmE.moveDown 20
  if day.subheadings ≠ [] then
    day.subheadings.foldl
      (renderSubheadingStep fonts textColor drawHeader day.dayNumber leftX 216
        fullTextWidth imageBottomY imagePageRef)
      pmF
  else if day.activities ≠ "" then
    let r := renderTextWithDynamicWidth fonts.body 10 textColor leftX 216
      fullTextWidth imageBottomY imagePageRef pmF (sanitizeTextForPdf day.activities)
    r.1.setY r.2
  else pmF

/-- The hotel line of `renderPaginatedItineraryDay` (pre-checked for 30
points of space, uppercased). -/
def renderDayHotel (day : ItineraryDay) (textColor : Color)
    (drawHeader : PageManager → PageManager) (leftX : ℚ) (pmH : PageManager) :
    PageManager :=
  if day.hotel ≠ "" then
    let checked := pmH.checkAndCreateNewPage 30
    let pm1 : PageManager := if checked.2 then drawHeader checked.1 else checked.1
    let withHotel : PageManager := { pm1 with ops := pm1.ops ++
      [DrawOp.text pm1.currentPage (sanitizeTextForPdf day.hotel).toUpper leftX
        pm1.currentY 10 textColor] }
    withHotel.moveDown 15
  else pmH

/-- The right-column image of the day, scaled to fit 225 × 223 and drawn on
the page where the day started. -/
def renderDayImage (image : Option PDFImage) (rightX imageStartY : ℚ)
    (imagePageRef : ℕ) (pmI : PageManager) : PageManager :=
  match image with
  | some img =>
    let scale : ℚ := min (225 / img.width) (223 / img.height)
    { pmI with ops := pmI.ops ++
      [DrawOp.image imagePageRef rightX (imageStartY - img.height * scale)
        (img.width * scale) (img.height * scale)] }
  | none => pmI

/-- The closing block of `renderPaginatedItineraryDay`: clamp the cursor
below the image box, draw the divider (except for the last day), then draw
the vertical gold accent rule on the gold bar's page — down to the cursor if
the day stayed on that page, down to y = 60 if it overflowed. -/
def renderDayClose (startX goldBarY : ℚ) (goldBarPage imagePageRef : ℕ)
    (imageBottomY : ℚ) (isLastDay : Bool) (pmJ : PageManager) : PageManager :=
  let pmK : PageManager :=
    if pmJ.currentPage = imagePageRef ∧ imageBottomY < pmJ.currentY then
      pmJ.setY imageBottomY
    else pmJ
  let pmL : PageManager := pmK.moveDown 31
  let pmM : PageManager :=
    if ¬isLastDay then
      { pmL with ops := pmL.ops ++
        [DrawOp.line pmL.currentPage (startX + 27 - 2) pmL.currentY
          (startX + 27 + 216 + 26 + 225) pmL.currentY (Color.mk (8/10) (8/10) (8/10))] }
    else pmL
  let pmN : PageManager := pmM.moveDown 35
  let verticalLineEndY : ℚ :=
    if pmN.currentPage = goldBarPage then pmN.currentY + 35 else 60
  { pmN with ops := pmN.ops ++
    [DrawOp.line goldBarPage (startX + 10) goldBarY (startX + 10) verticalLineEndY
      LUXURY_COLORS.gold] }

/-- `renderPaginatedItineraryDay`, assembled from its stages. -/
def renderPaginatedItineraryDay (fonts : FontFamily) (day : ItineraryDay)
    (image : Option PDFImage) (startX : ℚ) (textColor : Color)
    (isLastDay : Bool) (drawHeader : PageManager → PageManager) (isFirstDay : Bool)
    (pm0 : PageManager) : PageManager × ℚ :=
  let pmA : PageManager := dayStartState drawHeader isFirstDay pm0
  let goldBarPage : ℕ := pmA.currentPage
  let badge := renderDayBadge fonts day startX pmA
  let pmD : PageManager := badge.1
  let goldBarY : ℚ := badge.2
  let imagePageRef : ℕ := pmD.currentPage
  let imageStartY : ℚ := pmD.currentY
  let imageBottomY : ℚ := imageStartY - 223
  let pmG : PageManager := renderDayBody fonts day textColor drawHeader (startX + 27)
    imageBottomY imagePageRef pmD
  let pmH : PageManager := pmG.moveDown 10
  let pmI : PageManager := renderDayHotel day textColor drawHeader (startX + 27) pmH
  let pmJ : PageManager := renderDayImage image (startX + 27 + 216 + 26) imageStartY
    imagePageRef pmI
  (renderDayClose startX goldBarY goldBarPage imagePageRef imageBottomY isLastDay pmJ,
    goldBarY)

/-- The page an operation was issued against. -/
def DrawOp.opPage : DrawOp → ℕ
  | DrawOp.text page _ _ _ _ _ => page
  | DrawOp.rect page _ _ _ _ _ => page
  | DrawOp.line page _ _ _ _ _ => page
  | DrawOp.circle page _ _ _ _ => page
  | DrawOp.image page _ _ _ _ => page

/-- The vertical gold rule segments at abscissa `vX` among a list of
operations (both endpoints on `x = vX`, stroked in gold). -/
def goldVerticalSegments (vX : ℚ) (ops : List DrawOp) : List DrawOp :=
  ops.filter fun op =>
    match op with
    | DrawOp.line _ x1 _ x2 _ c => decide (x1 = vX ∧ x2 = vX ∧ c = LUXURY_COLORS.gold)
    | _ => false

/-- A hotel stay: only the fields `embedAllImages` reads. -/
structure HotelStay where
  name : String
  images : List String
deriving Repr, DecidableEq

/-- A flight: only the fields `embedAllImages` reads. -/
structure FlightDetails where
  flightNumber : String
  airlineLogo : Option String
deriving Repr, DecidableEq

/-- The parts of `ItineraryData` that `embedAllImages` consumes.
`destinationImage` stands for `data.basicDetails?.destinationImage`. -/
structure ItineraryData where
  heroImage : Option String
  destinationImage : Option String
  days : List ItineraryDay
  hotels : List HotelStay
  flights : List FlightDetails
deriving Repr, DecidableEq

/-- The record `embedAllImages` resolves to. Maps keyed by day number or
list index are association lists in insertion order. -/
structure EmbeddedImages where
  heroImage : Option PDFImage
  whyChooseUsImage : Option PDFImage
  basicDetailsTemplate : Option PDFImage
  destinationImage : Option PDFImage
  dayImages : List (ℕ × PDFImage)
  hotelImages : List (ℕ × List PDFImage)
  airlineLogos : List (ℕ × PDFImage)
deriving Repr, DecidableEq

/-- The `try { await embedImageInPDF(...) } catch { log }` pattern of
`embedAllImages`: an embed failure is swallowed (after logging) and the
image is simply absent. -/
def tryEmbed (embed : String → Except String PDFImage) (s : String) :
    Option PDFImage :=
  match embed s with
  | Except.ok i => some i
  | Except.error _ => none

/-- The day-image loop of `embedAllImages`: `dayImages.set(day.dayNumber, ...)`
for each day whose image embeds successfully. -/
def embedDayImages (embed : String → Except String PDFImage)
    (days : List ItineraryDay) : List (ℕ × PDFImage) :=
  days.foldl
    (fun acc day =>
      match day.image with
      | some s =>
        match tryEmbed embed s with
        | some i => acc ++ [(day.dayNumber, i)]
        | none => acc
      | none => acc)
    []

/-- The hotel-image loop of `embedAllImages`: per hotel (by index), embed
each of its images, keeping the hotel entry only when at least one image
embedded. -/
def embedHotelImages (embed : String → Except String PDFImage)
    (hotels : List HotelStay) : List (ℕ × List PDFImage) :=
  (hotels.foldl
    (fun (st : List (ℕ × List PDFImage) × ℕ) hotel =>
      let imgs := hotel.images.foldl
        (fun acc s =>
          match tryEmbed embed s with
          | some i => acc ++ [i]
          | none => acc)
        []
      (if imgs.length > 0 then st.1 ++ [(st.2, imgs)] else st.1, st.2 + 1))
    ([], 0)).1

/-- The airline-logo loop of `embedAllImages` (keyed by flight index). -/
def embedAirlineLogos (embed : String → Except String PDFImage)
    (flights : List FlightDetails) : List (ℕ × PDFImage) :=
  (flights.foldl
    (fun (st : List (ℕ × PDFImage) × ℕ) flight =>
      (match flight.airlineLogo with
       | some s =>
         match tryEmbed embed s with
         | some i => st.1 ++ [(st.2, i)]
         | none => st.1
       | none => st.1, st.2 + 1))
    ([], 0)).1

/-- `embedAllImages` from the field mapper: embed the hero, static page
images (modelled as optional file contents), destination photo, day images,
hotel images and airline logos — every embed wrapped in a local catch — and
resolve with the record. The `Except` codomain witnesses that the embedding
oracle may throw; the theorems show the function itself never propagates an
error. -/
def embedAllImages (embed : String → Except String PDFImage)
    (whyChooseUsFile basicDetailsFile : Option String) (data : ItineraryData) :
    Except String EmbeddedImages := do
  let heroImage : Option PDFImage :=
    match data.heroImage with
    | some s => tryEmbed embed s
    | none => none
  let whyChooseUsImage : Option PDFImage :=
    match whyChooseUsFile with
    | some s => tryEmbed embed s
    | none => none
  let basicDetailsTemplate : Option PDFImage :=
    match basicDetailsFile with
    | some s => tryEmbed embed s
    | none => none
  let destinationImage : Option PDFImage :=
    match data.destinationImage with
    | some s => tryEmbed embed s
    | none => none
  return {
    heroImage := heroImage
    whyChooseUsImage := whyChooseUsImage
    basicDetailsTemplate := basicDetailsTemplate
    destinationImage := destinationImage
    dayImages := embedDayImages embed data.days
    hotelImages := embedHotelImages embed data.hotels
    airlineLogos := embedAirlineLogos embed data.flights }

/-- `handleRemoveDay` from `TravelItineraryForm.tsx`: guarded by
`days.length > 1`, remove the day at `index` (filter on position) and
renumber the remaining days `1..`. -/
def handleRemoveDay (days : List ItineraryDay) (index : ℕ) : List ItineraryDay :=
  if 1 < days.length then
    let newDays := ((days.enum).filter fun p => p.1 ≠ index).map fun p => p.2
    (newDays.enum).map fun p => { p.2 with dayNumber := p.1 + 1 }
  else days

/-- A day with its number cleared: the identity of a day apart from its
(renumbered) `dayNumber` field. -/
def clearDayNumber (day : ItineraryDay) : ItineraryDay :=
  { day with dayNumber := 0 }

/-- The strings of the text operations in a list, in drawing order. -/
def textOpStrings (ops : List DrawOp) : List String :=
  ops.filterMap fun op =>
    match op with
    | DrawOp.text _ s _ _ _ _ => some s
    | _ => none

/-- Boolean form of the pagination invariant: every bullet glyph (circle)
among `ops` that is not part of `old` has its center — the cursor position
at which its atomic unit started — at or above `marginBottom`. -/
def circlesStartAboveMargin (marginBottom : ℚ) (old ops : List DrawOp) : Bool :=
  ops.all fun op =>
    match op with
    | DrawOp.circle _ _ cy _ _ =>
      decide (op ∈ old) || decide (marginBottom ≤ cy)
    | _ => true

/-- Boolean form of the `minY` truncation guarantee: every operation in the
list is a text line of the given page/size/color drawn at or above `minY`. -/
def textOpsAtOrAbove (page : ℕ) (fontSize : ℚ) (color : Color) (minY : ℚ)
    (ops : List DrawOp) : Bool :=
  ops.all fun op =>
    match op with
    | DrawOp.text p _ _ yy sz c =>
      decide (p = page ∧ sz = fontSize ∧ c = color ∧ minY ≤ yy)
    | _ => false

/-- Fixture font: each string measures its character count. Its width is
monotone under appending and measures the empty string as zero, so it
satisfies the sanity hypotheses of the wrapping theorems. -/
def lengthFont : PDFFont := ⟨fun s _ => (s.length : ℚ)⟩

/-- Fixture font: ten units per character. -/
def tenFont : PDFFont := ⟨fun s _ => 10 * (s.length : ℚ)⟩

/-- Fixture font family from `lengthFont`. -/
def lengthFonts : FontFamily := ⟨lengthFont, lengthFont, lengthFont, lengthFont, lengthFont⟩

/-- Fixture font family from `tenFont`. -/
def tenFonts : FontFamily := ⟨tenFont, tenFont, tenFont, tenFont, tenFont⟩

/-- Fixture page manager: a short page (height 300, margins 40/60, cursor at
200) so that overflow is easy to trigger; no hook, empty operation log. -/
def pmSmall : PageManager :=
  ⟨0, 1, 200, 500, 300, 40, 60, LUXURY_COLORS.darkBackground, none, [], []⟩

/-- Fixture page manager for the bullet-list witness: tall page, cursor
almost at the bottom so the first item paginates. -/
def pmTall : PageManager :=
  ⟨0, 1, 100, 595, 800, 50, 60, LUXURY_COLORS.darkBackground, none, [], []⟩

/-- Fixture day whose second subheading overflows `pmSmall`. -/
def dayFixture : ItineraryDay :=
  ⟨3, "T", "", [⟨"S1", "aa bb"⟩, ⟨"S2", "cc dd"⟩], none, ""⟩

/-- Fixture three-day list for the renumbering witness. -/
def daysFixture : List ItineraryDay :=
  [⟨1, "A", "x", [], none, ""⟩, ⟨2, "B", "y", [], none, ""⟩, ⟨3, "C", "z", [], none, ""⟩]

/-! ## Theorems -/

/-- The two copies of the wrap loop (inside `drawWrappedText` and inside
`calculateWrappedTextHeight`) are the same function. -/
theorem wrapLinesDraw_eq_wrapLinesCalc (font : PDFFont) (fontSize maxWidth : ℚ)
    (words : List String) :
    wrapLinesDraw font fontSize maxWidth words
      = wrapLinesCalc font fontSize maxWidth words := rfl

/-- With the default `minY = 0` the drawing loop of `drawWrappedText` moves
the cursor down once per wrapped line: no line is ever skipped. -/
theorem drawLoop_minY_zero (page : ℕ) (x maxWidth : ℚ) (font : PDFFont)
    (fontSize : ℚ) (color : Color) (ls : ℚ) (align : TextAlign) :
    ∀ (lines : List String) (st : List DrawOp × ℚ),
      (lines.foldl (drawWrappedTextLoop page x maxWidth font fontSize color ls 0 align) st).2
        = st.2 - lines.length * ls := by
  intro lines
  induction lines with
  | nil => intro st; simp
  | cons l rest ih =>
    intro st
    rw [List.foldl_cons, ih]
    simp only [drawWrappedTextLoop, lt_irrefl, false_and, if_false, List.length_cons]
    push_cast
    ring

/-- C1: `calculateWrappedTextHeight` returns (wrapped line count) × fontSize
× lineHeight, the wrap loop of `drawWrappedText` produces the same lines as
the one in `calculateWrappedTextHeight` for every input, and a call to
`drawWrappedText` with the default `minY = 0` returns the start Y minus
exactly the measured height: the cursor delta of drawing equals the
precomputed measured height. -/
theorem measuredHeight_matches_drawn_height (page : ℕ) (text : String)
    (x y maxWidth : ℚ) (font : PDFFont) (fontSize : ℚ) (color : Color)
    (lineHeight : ℚ) (align : TextAlign) :
    calculateWrappedTextHeight text maxWidth font fontSize lineHeight
        = ((wrapLinesCalc font fontSize maxWidth
            (jsSplitOnSpace (sanitizeTextForPdf text))).length : ℚ) * fontSize * lineHeight
    ∧ wrapLinesDraw font fontSize maxWidth (jsSplitOnSpace (sanitizeTextForPdf text))
        = wrapLinesCalc font fontSize maxWidth (jsSplitOnSpace (sanitizeTextForPdf text))
    ∧ (drawWrappedText page text x y maxWidth font fontSize color lineHeight align 0).2
        = y - calculateWrappedTextHeight text maxWidth font fontSize lineHeight := by
  refine ⟨rfl, rfl, ?_⟩
  simp only [drawWrappedText, calculateWrappedTextHeight]
  rw [drawLoop_minY_zero, wrapLinesDraw_eq_wrapLinesCalc]
  ring

/-- With a positive `minY`, the drawing loop appends text operations of the
call's page, size and color, every one drawn at or above `minY`, and moves
the cursor down once per operation actually drawn. -/
theorem drawLoop_minY_delta (page : ℕ) (x maxWidth : ℚ) (font : PDFFont)
    (fontSize : ℚ) (color : Color) (ls minY : ℚ) (align : TextAlign)
    (hmin : 0 < minY) :
    ∀ (lines : List String) (st : List DrawOp × ℚ),
      ∃ delta : List DrawOp,
        lines.foldl (drawWrappedTextLoop page x maxWidth font fontSize color ls minY align) st
          = (st.1 ++ delta, st.2 - delta.length * ls)
        ∧ ∀ op ∈ delta, ∃ s tx yy,
            op = DrawOp.text page s tx yy fontSize color ∧ minY ≤ yy := by
  intro lines
  induction lines with
  | nil =>
    intro st
    exact ⟨[], by simp, by simp⟩
  | cons l rest ih =>
    intro st
    rw [List.foldl_cons]
    by_cases hy : st.2 < minY
    · have hskip : drawWrappedTextLoop page x maxWidth font fontSize color ls minY align st l
          = st := by
        simp [drawWrappedTextLoop, hmin, hy]
      rw [hskip]
      exact ih st
    · have hstep : drawWrappedTextLoop page x maxWidth font fontSize color ls minY align st l
          = (st.1 ++ [DrawOp.text page l (wrappedTextX x maxWidth font fontSize align l)
              st.2 fontSize color], st.2 - ls) := by
        simp [drawWrappedTextLoop, hy]
      rw [hstep]
      obtain ⟨delta, heq, hprops⟩ := ih (st.1 ++ [DrawOp.text page l
        (wrappedTextX x maxWidth font fontSize align l) st.2 fontSize color], st.2 - ls)
      refine ⟨DrawOp.text page l (wrappedTextX x maxWidth font fontSize align l)
        st.2 fontSize color :: delta, ?_, ?_⟩
      · rw [heq]
        refine Prod.ext ?_ ?_
        · simp
        · simp only [List.length_cons]
          push_cast
          ring
      · intro op hop
        rcases List.mem_cons.mp hop with h | h
        · exact ⟨l, _, st.2, h, le_of_not_lt hy⟩
        · exact hprops op h

/-- With a positive `minY`, the cursor after the drawing loop never drops
below `min (start, minY - lineSpacing)`: drawing stops (without moving the
cursor) once it would cross the floor. -/
theorem drawLoop_minY_lower (page : ℕ) (x maxWidth : ℚ) (font : PDFFont)
    (fontSize : ℚ) (color : Color) (ls minY : ℚ) (align : TextAlign)
    (hmin : 0 < minY) :
    ∀ (lines : List String) (st : List DrawOp × ℚ),
      min st.2 (minY - ls)
        ≤ (lines.foldl (drawWrappedTextLoop page x maxWidth font fontSize color ls minY align) st).2 := by
  intro lines
  induction lines with
  | nil => intro st; exact min_le_left _ _
  | cons l rest ih =>
    intro st
    rw [List.foldl_cons]
    by_cases hy : st.2 < minY
    · have hskip : drawWrappedTextLoop page x maxWidth font fontSize color ls minY align st l
          = st := by
        simp [drawWrappedTextLoop, hmin, hy]
      rw [hskip]
      exact ih st
    · have hstep : (drawWrappedTextLoop page x maxWidth font fontSize color ls minY align st l).2
          = st.2 - ls := by
        simp [drawWrappedTextLoop, hy]
      have h2 := ih (drawWrappedTextLoop page x maxWidth font fontSize color ls minY align st l)
      rw [hstep] at h2
      have hge : minY - ls ≤ st.2 - ls := by
        have := not_lt.mp hy
        linarith
      calc min st.2 (minY - ls) ≤ minY - ls := min_le_right _ _
        _ = min (st.2 - ls) (minY - ls) := (min_eq_right hge).symm
        _ ≤ _ := h2

/-- C10 (amended): for every call to `drawWrappedText` with `minY > 0`, no
text line is drawn at a Y strictly below `minY`, a skipped line does not
move the cursor — so the returned Y equals the start Y minus (number of
actually drawn lines) × fontSize × lineHeight — and the returned Y is never
less than `min (start Y) (minY - fontSize·lineHeight)`. Under truncation the
returned cursor therefore no longer equals start minus the precomputed
wrapped-text height. (The claim's unconditional floor
`minY - fontSize·lineHeight` holds only when the call does not already start
below it; see the counterexample.) -/
theorem drawWrappedText_minY_truncation (page : ℕ) (text : String)
    (x y maxWidth : ℚ) (font : PDFFont) (fontSize : ℚ) (color : Color)
    (lineHeight : ℚ) (align : TextAlign) (minY : ℚ) (hmin : 0 < minY) :
    textOpsAtOrAbove page fontSize color minY
        (drawWrappedText page text x y maxWidth font fontSize color lineHeight align minY).1
      = true
    ∧ (drawWrappedText page text x y maxWidth font fontSize color lineHeight align minY).2
        = y - ((drawWrappedText page text x y maxWidth font fontSize color lineHeight
            align minY).1.length : ℚ) * (fontSize * lineHeight)
    ∧ min y (minY - fontSize * lineHeight)
        ≤ (drawWrappedText page text x y maxWidth font fontSize color lineHeight align minY).2 := by
  obtain ⟨delta, heq, hprops⟩ := drawLoop_minY_delta page x maxWidth font fontSize color
    (fontSize * lineHeight) minY align hmin
    (wrapLinesDraw font fontSize maxWidth (jsSplitOnSpace (sanitizeTextForPdf text))) ([], y)
  have hdw : drawWrappedText page text x y maxWidth font fontSize color lineHeight align minY
      = (delta, y - (delta.length : ℚ) * (fontSize * lineHeight)) := by
    simp only [drawWrappedText]
    rw [heq]
    simp
  rw [hdw]
  refine ⟨?_, by simp, ?_⟩
  · simp only [textOpsAtOrAbove, List.all_eq_true]
    intro op hop
    obtain ⟨s, tx, yy, rfl, hyy⟩ := hprops op hop
    simp [hyy]
  · have hlow := drawLoop_minY_lower page x maxWidth font fontSize color
      (fontSize * lineHeight) minY align hmin
      (wrapLinesDraw font fontSize maxWidth (jsSplitOnSpace (sanitizeTextForPdf text))) ([], y)
    rw [heq] at hlow
    simpa using hlow

/-- C10 counterexample: with `minY = 100 > 0` but a start Y of 0 (already
below the floor), `drawWrappedText` returns 0, which is strictly below the
unconditional floor `minY - fontSize·lineHeight = 86` asserted by the
claim. -/
theorem drawWrappedText_minY_floor_counterexample :
    (0:ℚ) < 100
    ∧ (drawWrappedText 0 "hello" 0 0 100 lengthFont 10 LUXURY_COLORS.textDark
        (14/10) TextAlign.left 100).2 < 100 - 10 * (14/10) := by
  refine ⟨by norm_num, ?_⟩
  with_unfolding_all decide

/-- The witness for `drawWrappedText_minY_truncation` at a concrete call. -/
theorem drawWrappedText_minY_truncation_witness :
    (0:ℚ) < 50
    ∧ (textOpsAtOrAbove 0 10 LUXURY_COLORS.textDark 50
        (drawWrappedText 0 "aa bb cc" 0 90 25 lengthFont 10 LUXURY_COLORS.textDark
          (14/10) TextAlign.left 50).1 = true
      ∧ (drawWrappedText 0 "aa bb cc" 0 90 25 lengthFont 10 LUXURY_COLORS.textDark
          (14/10) TextAlign.left 50).2
          = 90 - ((drawWrappedText 0 "aa bb cc" 0 90 25 lengthFont 10 LUXURY_COLORS.textDark
              (14/10) TextAlign.left 50).1.length : ℚ) * (10 * (14/10))
      ∧ min 90 (50 - 10 * (14/10))
          ≤ (drawWrappedText 0 "aa bb cc" 0 90 25 lengthFont 10 LUXURY_COLORS.textDark
              (14/10) TextAlign.left 50).2) :=
  ⟨by norm_num,
    drawWrappedText_minY_truncation 0 "aa bb cc" 0 90 25 lengthFont 10
      LUXURY_COLORS.textDark (14/10) TextAlign.left 50 (by norm_num)⟩

/-- One step of the bisimulation between the source wrap loop and the
specification's greedy wrap: the states either agree, or the source carries
an uncommitted oversized word that the specification has already committed
to its own line. -/
theorem wrapStep_spec_rel (font : PDFFont) (fontSize maxWidth : ℚ)
    (hmono : ∀ s t : String,
      font.widthOfTextAtSize s fontSize ≤ font.widthOfTextAtSize (s ++ t) fontSize)
    (hempty : font.widthOfTextAtSize "" fontSize ≤ maxWidth)
    (c s : List String × String)
    (hR : s = c ∨ (c.2 ≠ "" ∧ maxWidth < font.widthOfTextAtSize c.2 fontSize
      ∧ s = (c.1 ++ [c.2], ""))) (w : String) :
    specWrapStep font fontSize maxWidth s w = wrapStepDraw font fontSize maxWidth c w
    ∨ ((wrapStepDraw font fontSize maxWidth c w).2 ≠ ""
      ∧ maxWidth < font.widthOfTextAtSize (wrapStepDraw font fontSize maxWidth c w).2 fontSize
      ∧ specWrapStep font fontSize maxWidth s w
          = ((wrapStepDraw font fontSize maxWidth c w).1
              ++ [(wrapStepDraw font fontSize maxWidth c w).2], "")) := by
  have hwide_ne : maxWidth < font.widthOfTextAtSize w fontSize → w ≠ "" := by
    intro hw hcontr
    rw [hcontr] at hw
    exact absurd hempty (not_le.mpr hw)
  rcases hR with h | ⟨hne, hover, hs⟩
  · subst h
    by_cases hc : s.2 = ""
    · by_cases hw : maxWidth < font.widthOfTextAtSize w fontSize
      · right
        simp [wrapStepDraw, specWrapStep, hc, hw, hwide_ne hw]
      · left
        simp [wrapStepDraw, specWrapStep, hc, hw]
    · by_cases ht : maxWidth < font.widthOfTextAtSize (s.2 ++ " " ++ w) fontSize
      · by_cases hw : maxWidth < font.widthOfTextAtSize w fontSize
        · right
          simp [wrapStepDraw, specWrapStep, hc, ht, hw, not_le.mpr ht, hwide_ne hw]
        · left
          simp [wrapStepDraw, specWrapStep, hc, ht, hw, not_le.mpr ht]
      · left
        simp [wrapStepDraw, specWrapStep, hc, ht, not_lt.mp ht]
  · have hassoc : c.2 ++ " " ++ w = c.2 ++ (" " ++ w) := String.append_assoc c.2 " " w
    have hext : maxWidth < font.widthOfTextAtSize (c.2 ++ " " ++ w) fontSize := by
      have h1 := hmono c.2 (" " ++ w)
      rw [← hassoc] at h1
      exact lt_of_lt_of_le hover h1
    by_cases hw : maxWidth < font.widthOfTextAtSize w fontSize
    · right
      subst hs
      simp [wrapStepDraw, specWrapStep, hne, hext, hw, hwide_ne hw]
    · left
      subst hs
      simp [wrapStepDraw, specWrapStep, hne, hext, hw]

/-- The bisimulation of `wrapStep_spec_rel`, folded over the word list. -/
theorem wrapFold_spec_rel (font : PDFFont) (fontSize maxWidth : ℚ)
    (hmono : ∀ s t : String,
      font.widthOfTextAtSize s fontSize ≤ font.widthOfTextAtSize (s ++ t) fontSize)
    (hempty : font.widthOfTextAtSize "" fontSize ≤ maxWidth) :
    ∀ (words : List String) (c s : List String × String),
      (s = c ∨ (c.2 ≠ "" ∧ maxWidth < font.widthOfTextAtSize c.2 fontSize
        ∧ s = (c.1 ++ [c.2], ""))) →
      (words.foldl (specWrapStep font fontSize maxWidth) s
          = words.foldl (wrapStepDraw font fontSize maxWidth) c
        ∨ ((words.foldl (wrapStepDraw font fontSize maxWidth) c).2 ≠ ""
          ∧ maxWidth < font.widthOfTextAtSize
              (words.foldl (wrapStepDraw font fontSize maxWidth) c).2 fontSize
          ∧ words.foldl (specWrapStep font fontSize maxWidth) s
            = ((words.foldl (wrapStepDraw font fontSize maxWidth) c).1
                ++ [(words.foldl (wrapStepDraw font fontSize maxWidth) c).2], ""))) := by
  intro words
  induction words with
  | nil =>
    intro c s hR
    simpa using hR
  | cons w rest ih =>
    intro c s hR
    rw [List.foldl_cons, List.foldl_cons]
    exact ih (wrapStepDraw font fontSize maxWidth c w)
      (specWrapStep font fontSize maxWidth s w)
      (wrapStep_spec_rel font fontSize maxWidth hmono hempty c s hR w)

/-- C3: for every input text, the wrapping used by `drawWrappedText` and by
`calculateWrappedTextHeight` is greedy word-wrap exactly as specified: the
sanitized text is split on whitespace, a word is appended to the current
line while the measured width of `currentLine ++ " " ++ word` stays within
`maxWidth`, otherwise the current line is committed and the word starts the
next line, and a single word wider than `maxWidth` is placed alone on its
own line with no character-level splitting (termination is inherent: the
loop is one fold over the word list). The hypotheses are the two sanity
facts every real font measure satisfies: monotone under appending, and the
empty string measures within `maxWidth`. -/
theorem wrap_is_greedy_word_wrap (font : PDFFont) (fontSize maxWidth : ℚ)
    (text : String)
    (hmono : ∀ s t : String,
      font.widthOfTextAtSize s fontSize ≤ font.widthOfTextAtSize (s ++ t) fontSize)
    (hempty : font.widthOfTextAtSize "" fontSize ≤ maxWidth) :
    wrapLinesDraw font fontSize maxWidth (jsSplitOnSpace (sanitizeTextForPdf text))
      = specGreedyWrap font fontSize maxWidth (jsSplitOnSpace (sanitizeTextForPdf text))
    ∧ wrapLinesCalc font fontSize maxWidth (jsSplitOnSpace (sanitizeTextForPdf text))
      = specGreedyWrap font fontSize maxWidth (jsSplitOnSpace (sanitizeTextForPdf text)) := by
  have key : ∀ words : List String,
      specGreedyWrap font fontSize maxWidth words
        = wrapLinesDraw font fontSize maxWidth words := by
    intro words
    have h := wrapFold_spec_rel font fontSize maxWidth hmono hempty words ([], "") ([], "")
      (Or.inl rfl)
    simp only [specGreedyWrap, wrapLinesDraw]
    rcases h with h | ⟨hne, hover, heq⟩
    · rw [h]
    · rw [heq]
      simp [hne]
  refine ⟨(key _).symm, ?_⟩
  rw [← wrapLinesDraw_eq_wrapLinesCalc]
  exact (key _).symm

/-- The width of `lengthFont` is monotone under appending. -/
theorem lengthFont_width_mono (fontSize : ℚ) (s t : String) :
    lengthFont.widthOfTextAtSize s fontSize
      ≤ lengthFont.widthOfTextAtSize (s ++ t) fontSize := by
  simp only [lengthFont, String.length_append]
  push_cast
  linarith [Nat.cast_nonneg (α := ℚ) t.length]

/-- The witness for `wrap_is_greedy_word_wrap` at a concrete font, width and
text. -/
theorem wrap_is_greedy_word_wrap_witness :
    (∀ s t : String, lengthFont.widthOfTextAtSize s 10
        ≤ lengthFont.widthOfTextAtSize (s ++ t) 10)
    ∧ lengthFont.widthOfTextAtSize "" 10 ≤ 6
    ∧ (wrapLinesDraw lengthFont 10 6 (jsSplitOnSpace (sanitizeTextForPdf "alpha beta gamma"))
        = specGreedyWrap lengthFont 10 6 (jsSplitOnSpace (sanitizeTextForPdf "alpha beta gamma"))
      ∧ wrapLinesCalc lengthFont 10 6 (jsSplitOnSpace (sanitizeTextForPdf "alpha beta gamma"))
        = specGreedyWrap lengthFont 10 6 (jsSplitOnSpace (sanitizeTextForPdf "alpha beta gamma"))) :=
  ⟨lengthFont_width_mono 10, by norm_num [lengthFont],
    wrap_is_greedy_word_wrap lengthFont 10 6 "alpha beta gamma"
      (lengthFont_width_mono 10) (by norm_num [lengthFont])⟩

/-- C2: `checkAndCreateNewPage` returns `true` and switches to a fresh page
— cursor reset to `pageHeight - marginTop`, page background painted,
`onNewPage` hook invoked — exactly when `currentY - requiredHeight` would
cross `marginBottom`; otherwise it returns `false` and leaves the manager
(current page handle and cursor included) unchanged. -/
theorem checkAndCreateNewPage_paginates_iff (pm : PageManager) (requiredHeight : ℚ) :
    ((pm.checkAndCreateNewPage requiredHeight).2 = true
      ↔ pm.currentY - requiredHeight < pm.marginBottom)
    ∧ (pm.checkAndCreateNewPage requiredHeight).1
        = (if pm.currentY - requiredHeight < pm.marginBottom then pm.createNewPage else pm)
    ∧ pm.createNewPage.currentPage = pm.nextPageId
    ∧ pm.createNewPage.currentY = pm.pageHeight - pm.marginTop
    ∧ pm.createNewPage.ops
        = pm.ops
          ++ drawPageBackground pm.nextPageId pm.pageWidth pm.pageHeight pm.backgroundColor
          ++ (match pm.onNewPage with | some f => f pm.nextPageId | none => [])
    ∧ pm.createNewPage.hookCalls
        = (match pm.onNewPage with
           | some _ => pm.hookCalls ++ [pm.nextPageId]
           | none => pm.hookCalls) := by
  refine ⟨?_, ?_, rfl, rfl, rfl, rfl⟩
  · by_cases h : pm.currentY - requiredHeight < pm.marginBottom <;>
      simp [PageManager.checkAndCreateNewPage, h]
  · by_cases h : pm.currentY - requiredHeight < pm.marginBottom <;>
      simp [PageManager.checkAndCreateNewPage, h]

/-- A wrapped-line measurement is never negative (for nonnegative font size
and line height). -/
theorem calculateWrappedTextHeight_nonneg (text : String) (maxWidth : ℚ)
    (font : PDFFont) (fontSize lineHeight : ℚ)
    (hfs : 0 ≤ fontSize) (hlh : 0 ≤ lineHeight) :
    0 ≤ calculateWrappedTextHeight text maxWidth font fontSize lineHeight := by
  unfold calculateWrappedTextHeight
  exact mul_nonneg (mul_nonneg (Nat.cast_nonneg _) hfs) hlh

/-- Every operation the drawing loop of `drawWrappedText` adds is a text
operation (of the call's page, size and color). -/
theorem drawLoop_ops_are_text (page : ℕ) (x maxWidth : ℚ) (font : PDFFont)
    (fontSize : ℚ) (color : Color) (ls minY : ℚ) (align : TextAlign) :
    ∀ (lines : List String) (st : List DrawOp × ℚ),
      ∀ op ∈ (lines.foldl (drawWrappedTextLoop page x maxWidth font fontSize color ls minY align) st).1,
        op ∈ st.1 ∨ ∃ s tx yy, op = DrawOp.text page s tx yy fontSize color := by
  intro lines
  induction lines with
  | nil =>
    intro st op hop
    exact Or.inl hop
  | cons l rest ih =>
    intro st op hop
    rw [List.foldl_cons] at hop
    rcases ih (drawWrappedTextLoop page x maxWidth font fontSize color ls minY align st l)
      op hop with h | h
    · by_cases hskip : 0 < minY ∧ st.2 < minY
      · rw [drawWrappedTextLoop, if_pos hskip] at h
        exact Or.inl h
      · rw [drawWrappedTextLoop, if_neg hskip] at h
        rcases List.mem_append.mp h with h2 | h2
        · exact Or.inl h2
        · rcases List.mem_singleton.mp h2 with rfl
          exact Or.inr ⟨l, _, st.2, rfl⟩
    · exact Or.inr h

/-- The same for `drawWrappedText` itself. -/
theorem drawWrappedText_ops_are_text (page : ℕ) (text : String) (x y maxWidth : ℚ)
    (font : PDFFont) (fontSize : ℚ) (color : Color) (lineHeight : ℚ)
    (align : TextAlign) (minY : ℚ) :
    ∀ op ∈ (drawWrappedText page text x y maxWidth font fontSize color lineHeight align minY).1,
      ∃ s tx yy, op = DrawOp.text page s tx yy fontSize color := by
  intro op hop
  simp only [drawWrappedText] at hop
  rcases drawLoop_ops_are_text page x maxWidth font fontSize color
    (fontSize * lineHeight) minY align _ ([], y) op hop with h | h
  · simp at h
  · exact h

/-- The bullet-list item step never changes the page geometry or the
hook. -/
theorem bulletItem_frame (x maxWidth : ℚ) (font : PDFFont) (fontSize : ℚ)
    (bulletColor textColor : Color)
    (bulletSize bulletIndent lineHeight itemSpacing : ℚ)
    (sectionTitle : Option String) (titleFont : Option PDFFont)
    (titleSize : ℚ) (titleColor : Color) (titleSpacing : ℚ)
    (pm : PageManager) (item : String) :
    (drawPaginatedBulletListItem x maxWidth font fontSize bulletColor textColor bulletSize
      bulletIndent lineHeight itemSpacing sectionTitle titleFont titleSize titleColor
      titleSpacing pm item).marginBottom = pm.marginBottom
    ∧ (drawPaginatedBulletListItem x maxWidth font fontSize bulletColor textColor bulletSize
        bulletIndent lineHeight itemSpacing sectionTitle titleFont titleSize titleColor
        titleSpacing pm item).marginTop = pm.marginTop
    ∧ (drawPaginatedBulletListItem x maxWidth font fontSize bulletColor textColor bulletSize
        bulletIndent lineHeight itemSpacing sectionTitle titleFont titleSize titleColor
        titleSpacing pm item).pageHeight = pm.pageHeight
    ∧ (drawPaginatedBulletListItem x maxWidth font fontSize bulletColor textColor bulletSize
        bulletIndent lineHeight itemSpacing sectionTitle titleFont titleSize titleColor
        titleSpacing pm item).onNewPage = pm.onNewPage := by
  unfold drawPaginatedBulletListItem PageManager.checkAndCreateNewPage
  by_cases h : pm.currentY
      - (calculateWrappedTextHeight item (maxWidth - bulletIndent) font fontSize lineHeight
        + itemSpacing + 20) < pm.marginBottom <;>
    rcases sectionTitle with _ | title <;> rcases titleFont with _ | tf <;>
      simp [h, PageManager.createNewPage, PageManager.moveDown]

set_option maxHeartbeats 2000000 in
/-- Every bullet glyph added by one item of `drawPaginatedBulletList` sits at
or above the bottom margin: the item's full wrapped height is measured and
`checkAndCreateNewPage` is consulted before any of it is drawn. -/
theorem bulletItem_circles (x maxWidth : ℚ) (font : PDFFont) (fontSize : ℚ)
    (bulletColor textColor : Color)
    (bulletSize bulletIndent lineHeight itemSpacing : ℚ)
    (sectionTitle : Option String) (titleFont : Option PDFFont)
    (titleSize : ℚ) (titleColor : Color) (titleSpacing : ℚ)
    (pm : PageManager) (item : String)
    (honNone : pm.onNewPage = none)
    (hfs : 0 ≤ fontSize) (hlh : 0 ≤ lineHeight) (hsp : 0 ≤ itemSpacing)
    (hts : 0 ≤ titleSpacing)
    (hroom : pm.marginBottom ≤ pm.pageHeight - pm.marginTop - titleSpacing) :
    ∀ p cx cy r c, DrawOp.circle p cx cy r c
        ∈ (drawPaginatedBulletListItem x maxWidth font fontSize bulletColor textColor
            bulletSize bulletIndent lineHeight itemSpacing sectionTitle titleFont titleSize
            titleColor titleSpacing pm item).ops →
      DrawOp.circle p cx cy r c ∈ pm.ops ∨ pm.marginBottom ≤ cy := by
  intro p cx cy r c hmem
  have hcalc := calculateWrappedTextHeight_nonneg item (maxWidth - bulletIndent) font
    fontSize lineHeight hfs hlh
  by_cases h : pm.currentY
      - (calculateWrappedTextHeight item (maxWidth - bulletIndent) font fontSize lineHeight
        + itemSpacing + 20) < pm.marginBottom
  · -- the pre-check paginated: the bullet lands near the top of a fresh page
    rcases sectionTitle with _ | title
    · simp [drawPaginatedBulletListItem, PageManager.checkAndCreateNewPage, if_pos h,
        honNone, PageManager.createNewPage, PageManager.moveDown, drawPageBackground,
        drawBulletPoint] at hmem
      rcases hmem with hmem | hmem | hmem
      · exact Or.inl hmem
      · rcases hmem with ⟨_, _, hcy, _, _⟩
        right
        rw [hcy]
        linarith
      · obtain ⟨s, tx, yy, heq⟩ := drawWrappedText_ops_are_text _ item _ _ _ font fontSize
          textColor lineHeight TextAlign.left 0 _ hmem
        cases heq
    · rcases titleFont with _ | tf
      · simp [drawPaginatedBulletListItem, PageManager.checkAndCreateNewPage, if_pos h,
          honNone, PageManager.createNewPage, PageManager.moveDown, drawPageBackground,
          drawBulletPoint] at hmem
        rcases hmem with hmem | hmem | hmem
        · exact Or.inl hmem
        · rcases hmem with ⟨_, _, hcy, _, _⟩
          right
          rw [hcy]
          linarith
        · obtain ⟨s, tx, yy, heq⟩ := drawWrappedText_ops_are_text _ item _ _ _ font fontSize
            textColor lineHeight TextAlign.left 0 _ hmem
          cases heq
      · simp [drawPaginatedBulletListItem, PageManager.checkAndCreateNewPage, if_pos h,
          honNone, PageManager.createNewPage, PageManager.moveDown, drawPageBackground,
          drawBulletPoint] at hmem
        rcases hmem with hmem | hmem | hmem
        · exact Or.inl hmem
        · rcases hmem with ⟨_, _, hcy, _, _⟩
          right
          rw [hcy]
          linarith
        · obtain ⟨s, tx, yy, heq⟩ := drawWrappedText_ops_are_text _ item _ _ _ font fontSize
            textColor lineHeight TextAlign.left 0 _ hmem
          cases heq
  · -- no pagination: the pre-check guarantees room below the cursor
    simp [drawPaginatedBulletListItem, PageManager.checkAndCreateNewPage, if_neg h,
      drawBulletPoint] at hmem
    rcases hmem with hmem | hmem | hmem
    · exact Or.inl hmem
    · rcases hmem with ⟨_, _, hcy, _, _⟩
      right
      rw [hcy]
      have hy := not_lt.mp h
      linarith
    · obtain ⟨s, tx, yy, heq⟩ := drawWrappedText_ops_are_text _ item _ _ _ font fontSize
        textColor lineHeight TextAlign.left 0 _ hmem
      cases heq

/-- The pagination invariant over a whole item list, in membership form. -/
theorem bulletList_circles (x maxWidth : ℚ) (font : PDFFont) (fontSize : ℚ)
    (bulletColor textColor : Color)
    (bulletSize bulletIndent lineHeight itemSpacing : ℚ)
    (sectionTitle : Option String) (titleFont : Option PDFFont)
    (titleSize : ℚ) (titleColor : Color) (titleSpacing : ℚ)
    (hfs : 0 ≤ fontSize) (hlh : 0 ≤ lineHeight) (hsp : 0 ≤ itemSpacing)
    (hts : 0 ≤ titleSpacing) :
    ∀ (items : List String) (pm : PageManager),
      pm.onNewPage = none →
      pm.marginBottom ≤ pm.pageHeight - pm.marginTop - titleSpacing →
      ∀ p cx cy r c, DrawOp.circle p cx cy r c
          ∈ (drawPaginatedBulletList x maxWidth font fontSize bulletColor textColor
              bulletSize bulletIndent lineHeight itemSpacing sectionTitle titleFont titleSize
              titleColor titleSpacing pm items).ops →
        DrawOp.circle p cx cy r c ∈ pm.ops ∨ pm.marginBottom ≤ cy := by
  intro items
  induction items with
  | nil =>
    intro pm honNone hroom p cx cy r c hmem
    exact Or.inl hmem
  | cons item rest ih =>
    intro pm honNone hroom p cx cy r c hmem
    rw [drawPaginatedBulletList, List.foldl_cons] at hmem
    have hframe := bulletItem_frame x maxWidth font fontSize bulletColor textColor
      bulletSize bulletIndent lineHeight itemSpacing sectionTitle titleFont titleSize
      titleColor titleSpacing pm item
    obtain ⟨hmb, hmt, hph, honn⟩ := hframe
    have honNone2 : (drawPaginatedBulletListItem x maxWidth font fontSize bulletColor
        textColor bulletSize bulletIndent lineHeight itemSpacing sectionTitle titleFont
        titleSize titleColor titleSpacing pm item).onNewPage = none := by
      rw [honn]; exact honNone
    have hroom2 : (drawPaginatedBulletListItem x maxWidth font fontSize bulletColor
        textColor bulletSize bulletIndent lineHeight itemSpacing sectionTitle titleFont
        titleSize titleColor titleSpacing pm item).marginBottom
        ≤ (drawPaginatedBulletListItem x maxWidth font fontSize bulletColor
            textColor bulletSize bulletIndent lineHeight itemSpacing sectionTitle titleFont
            titleSize titleColor titleSpacing pm item).pageHeight
          - (drawPaginatedBulletListItem x maxWidth font fontSize bulletColor
              textColor bulletSize bulletIndent lineHeight itemSpacing sectionTitle titleFont
              titleSize titleColor titleSpacing pm item).marginTop - titleSpacing := by
      rw [hmb, hmt, hph]; exact hroom
    have h1 := ih _ honNone2 hroom2 p cx cy r c (by
      rw [drawPaginatedBulletList]; exact hmem)
    rcases h1 with h1 | h1
    · rcases bulletItem_circles x maxWidth font fontSize bulletColor textColor bulletSize
        bulletIndent lineHeight itemSpacing sectionTitle titleFont titleSize titleColor
        titleSpacing pm item honNone hfs hlh hsp hts hroom p cx cy r c h1 with h2 | h2
      · exact Or.inl h2
      · exact Or.inr h2
    · rw [hmb] at h1
      exact Or.inr h1

/-- C4: every bullet item rendered through `drawPaginatedBulletList` starts
at a cursor Y at or above the bottom margin: the item's full wrapped height
is computed and `checkAndCreateNewPage` runs before any of it is drawn, so
an item that would not fit is pre-empted to a fresh page. Each item's single
bullet glyph is drawn centered exactly at the cursor where the unit started,
so the invariant is phrased over the circle operations added to the log.
The hypotheses are the geometric sanity conditions all call sites satisfy:
nonnegative font size, line height, item spacing and title spacing, no hook
installed, and a fresh page leaving room below the redrawn section title. -/
theorem paginatedBulletList_units_start_above_margin (x maxWidth : ℚ)
    (font : PDFFont) (fontSize : ℚ) (bulletColor textColor : Color)
    (bulletSize bulletIndent lineHeight itemSpacing : ℚ)
    (sectionTitle : Option String) (titleFont : Option PDFFont)
    (titleSize : ℚ) (titleColor : Color) (titleSpacing : ℚ)
    (items : List String) (pm : PageManager)
    (honNone : pm.onNewPage = none)
    (hfs : 0 ≤ fontSize) (hlh : 0 ≤ lineHeight) (hsp : 0 ≤ itemSpacing)
    (hts : 0 ≤ titleSpacing)
    (hroom : pm.marginBottom ≤ pm.pageHeight - pm.marginTop - titleSpacing) :
    circlesStartAboveMargin pm.marginBottom pm.ops
      (drawPaginatedBulletList x maxWidth font fontSize bulletColor textColor bulletSize
        bulletIndent lineHeight itemSpacing sectionTitle titleFont titleSize titleColor
        titleSpacing pm items).ops = true := by
  rw [circlesStartAboveMargin, List.all_eq_true]
  intro op hop
  match op with
  | DrawOp.text _ _ _ _ _ _ => rfl
  | DrawOp.rect _ _ _ _ _ _ => rfl
  | DrawOp.line _ _ _ _ _ _ => rfl
  | DrawOp.image _ _ _ _ _ => rfl
  | DrawOp.circle p cx cy r c =>
    rcases bulletList_circles x maxWidth font fontSize bulletColor textColor bulletSize
      bulletIndent lineHeight itemSpacing sectionTitle titleFont titleSize titleColor
      titleSpacing hfs hlh hsp hts items pm honNone hroom p cx cy r c hop with h | h
    · simp [h]
    · simp [h]

/-- The witness for `paginatedBulletList_units_start_above_margin`, at the
inclusions call site's parameters. -/
theorem paginatedBulletList_units_start_above_margin_witness :
    pmTall.onNewPage = none
    ∧ (0:ℚ) ≤ 11 ∧ (0:ℚ) ≤ 3/2 ∧ (0:ℚ) ≤ 10 ∧ (0:ℚ) ≤ 60
    ∧ pmTall.marginBottom ≤ pmTall.pageHeight - pmTall.marginTop - 60
    ∧ circlesStartAboveMargin pmTall.marginBottom pmTall.ops
        (drawPaginatedBulletList 60 475 lengthFont 11 LUXURY_COLORS.gold
          LUXURY_COLORS.white 6 15 (3/2) 10 (some "Inclusions") (some lengthFont) 36
          LUXURY_COLORS.gold 60 pmTall ["first item", "second item"]).ops = true :=
  ⟨rfl, by norm_num, by norm_num, by norm_num, by norm_num,
    by norm_num [pmTall],
    paginatedBulletList_units_start_above_margin 60 475 lengthFont 11 LUXURY_COLORS.gold
      LUXURY_COLORS.white 6 15 (3/2) 10 (some "Inclusions") (some lengthFont) 36
      LUXURY_COLORS.gold 60 ["first item", "second item"] pmTall rfl (by norm_num)
      (by norm_num) (by norm_num) (by norm_num) (by norm_num [pmTall])⟩

/-- C5 (amended): the pricing section draws, in order, the heading, then a
label and a value per row; the Total Amount row displays the
currency-formatted `pricing.total` field exactly as provided upstream (the
orchestrator passes `data.pricing` through without recomputation), so the
total row shows `subtotal + taxes + fees` only when the upstream field was
already set to that sum. -/
theorem pricingSection_total_is_trusted_field (page : ℕ) (fonts : FontFamily)
    (startX startY : ℚ) (pricing : PricingDetails) (textColor : Color) :
    textOpStrings (renderPricingSection page fonts startX startY pricing textColor).1
      = ["Pricing Summary",
         "Subtotal", formatCurrency pricing.subtotal pricing.currency,
         "Taxes", formatCurrency pricing.taxes pricing.currency,
         "Fees", formatCurrency pricing.fees pricing.currency,
         "Total Amount", formatCurrency pricing.total pricing.currency]
    ∧ (pricingRows pricing).getLast?
        = some ⟨"Total Amount", formatCurrency pricing.total pricing.currency, true⟩ :=
  ⟨rfl, rfl⟩

/-- C5 counterexample: with subtotal 2500, taxes 250 and fees 50 but the
upstream `total` field set to 9999, the Total Amount row displays $9999.00 —
not the $2800.00 (= formatted subtotal + taxes + fees) the claim requires —
and $2800.00 appears nowhere in the section's text. -/
theorem pricingSection_total_counterexample :
    textOpStrings (renderPricingSection 0 lengthFonts 40 700
        ⟨2500, 250, 50, 9999, "USD"⟩ LUXURY_COLORS.textDark).1
      = ["Pricing Summary", "Subtotal", "$2500.00", "Taxes", "$250.00",
         "Fees", "$50.00", "Total Amount", "$9999.00"]
    ∧ formatCurrency (2500 + 250 + 50) "USD" = "$2800.00"
    ∧ ("$9999.00" : String) ≠ "$2800.00"
    ∧ "$2800.00" ∉ textOpStrings (renderPricingSection 0 lengthFonts 40 700
        ⟨2500, 250, 50, 9999, "USD"⟩ LUXURY_COLORS.textDark).1 := by
  with_unfolding_all decide

/-- C7 (amended): the standalone inclusions renderer produces, for an empty
list, the section header plus exactly one muted "No inclusions specified"
line (and returns the correspondingly advanced cursor); the document
orchestrator, however, skips the inclusions block entirely when the list is
empty — no header, no placeholder, and no exception (the block is a total
function returning the manager unchanged). -/
theorem inclusionsSection_empty_placeholder_vs_orchestrator_skip (page : ℕ)
    (fonts : FontFamily) (startX startY maxWidth : ℚ) (textColor : Color)
    (pm : PageManager) :
    renderInclusionsSection page fonts startX startY maxWidth []
      = ([DrawOp.text page "Inclusions" startX startY 36 LUXURY_COLORS.gold,
          DrawOp.text page "No inclusions specified" (startX + 20) (startY - 60)
            LUXURY_FONT_SIZES.body LUXURY_COLORS.textMuted],
         startY - 60 - LUXURY_FONT_SIZES.body * (3/2) - 30)
    ∧ inclusionsBlock fonts startX maxWidth textColor [] pm = pm :=
  ⟨rfl, rfl⟩

/-- C7 counterexample: in the document path (`generateItineraryPDF`), an
empty inclusions list produces no drawing at all — neither the section
header nor the placeholder line the claim requires. -/
theorem inclusionsBlock_empty_counterexample :
    inclusionsBlock lengthFonts 40 515 LUXURY_COLORS.white [] pmSmall = pmSmall
    ∧ textOpStrings (inclusionsBlock lengthFonts 40 515 LUXURY_COLORS.white [] pmSmall).ops
        = []
    ∧ "Inclusions" ∉ textOpStrings
        (inclusionsBlock lengthFonts 40 515 LUXURY_COLORS.white [] pmSmall).ops
    ∧ "No inclusions specified" ∉ textOpStrings
        (inclusionsBlock lengthFonts 40 515 LUXURY_COLORS.white [] pmSmall).ops :=
  ⟨rfl, rfl, by decide, by decide⟩

/-- Filtering an enumeration on "index ≠ j" keeps everything when `j` is
below the enumeration's start. -/
theorem enumFrom_filter_ne_of_lt {α : Type} :
    ∀ (l : List α) (m j : ℕ), j < m →
      ((List.enumFrom m l).filter fun p => p.1 ≠ j).map Prod.snd = l := by
  intro l
  induction l with
  | nil => intro m j h; rfl
  | cons a t ih =>
    intro m j h
    have hne : m ≠ j := Nat.ne_of_gt h
    show (((m, a) :: List.enumFrom (m + 1) t).filter fun p => p.1 ≠ j).map Prod.snd
      = a :: t
    rw [List.filter_cons, if_pos (by simp [hne]), List.map_cons,
      ih (m + 1) j (Nat.lt_succ_of_lt h)]

/-- Filtering an enumeration on "index ≠ m + k" removes exactly the element
at offset `k`. -/
theorem enumFrom_filter_ne_eraseIdx {α : Type} :
    ∀ (l : List α) (m k : ℕ),
      ((List.enumFrom m l).filter fun p => p.1 ≠ m + k).map Prod.snd = l.eraseIdx k := by
  intro l
  induction l with
  | nil => intro m k; rfl
  | cons a t ih =>
    intro m k
    cases k with
    | zero =>
      show (((m, a) :: List.enumFrom (m + 1) t).filter fun p => p.1 ≠ m + 0).map Prod.snd
        = (a :: t).eraseIdx 0
      rw [List.filter_cons, if_neg (by simp)]
      simpa using enumFrom_filter_ne_of_lt t (m + 1) (m + 0) (by omega)
    | succ k =>
      show (((m, a) :: List.enumFrom (m + 1) t).filter fun p => p.1 ≠ m + (k + 1)).map
          Prod.snd = (a :: t).eraseIdx (k + 1)
      rw [List.filter_cons, if_pos (by simp), List.map_cons]
      have := ih (m + 1) k
      rw [show m + 1 + k = m + (k + 1) by omega] at this
      rw [this]
      rfl

/-- Renumbering an enumeration yields the consecutive day numbers starting
just above the enumeration's start. -/
theorem enumFrom_renumber_numbers :
    ∀ (l : List ItineraryDay) (m : ℕ),
      (((List.enumFrom m l).map fun p => { p.2 with dayNumber := p.1 + 1 }).map
        fun d => d.dayNumber) = List.range' (m + 1) l.length := by
  intro l
  induction l with
  | nil => intro m; rfl
  | cons a t ih =>
    intro m
    simp only [List.enumFrom, List.map_cons, List.length_cons, List.range'_succ]
    rw [ih (m + 1)]

/-- Renumbering does not change a day apart from its number. -/
theorem enumFrom_renumber_strip :
    ∀ (l : List ItineraryDay) (m : ℕ),
      (((List.enumFrom m l).map fun p => { p.2 with dayNumber := p.1 + 1 }).map
        clearDayNumber) = l.map clearDayNumber := by
  intro l
  induction l with
  | nil => intro m; rfl
  | cons a t ih =>
    intro m
    simp only [List.enumFrom, List.map_cons]
    rw [ih (m + 1)]
    rfl

/-- C9: removing the day at a valid index `k` from an N-day list (N ≥ 2) via
`handleRemoveDay` yields N − 1 days whose `dayNumber` fields are exactly
`1..N-1` in order; apart from the renumbering the result is precisely
`days.eraseIdx k`, so the relative order (and every other field) of the
remaining days is preserved. -/
theorem handleRemoveDay_renumbers (days : List ItineraryDay) (k : ℕ)
    (hN : 2 ≤ days.length) (hk : k < days.length) :
    (handleRemoveDay days k).length = days.length - 1
    ∧ ((handleRemoveDay days k).map fun d => d.dayNumber)
        = List.range' 1 (days.length - 1)
    ∧ (handleRemoveDay days k).map clearDayNumber
        = (days.eraseIdx k).map clearDayNumber := by
  have hguard : 1 < days.length := by omega
  have hnew : ((days.enum.filter fun p => p.1 ≠ k).map fun p => p.2)
      = days.eraseIdx k := by
    have h := enumFrom_filter_ne_eraseIdx days 0 k
    simpa [List.enum] using h
  have hlen : (days.eraseIdx k).length = days.length - 1 := by
    rw [List.length_eraseIdx, if_pos hk]
  have hmain : handleRemoveDay days k
      = ((days.eraseIdx k).enum).map fun p => { p.2 with dayNumber := p.1 + 1 } := by
    simp only [handleRemoveDay, if_pos hguard]
    rw [hnew]
  refine ⟨?_, ?_, ?_⟩
  · rw [hmain]
    simp [hlen]
  · rw [hmain]
    simp only [List.enum]
    rw [enumFrom_renumber_numbers (days.eraseIdx k) 0, hlen]
  · rw [hmain]
    simp only [List.enum]
    rw [enumFrom_renumber_strip (days.eraseIdx k) 0]

/-- The witness for `handleRemoveDay_renumbers`: removing day 2 of three. -/
theorem handleRemoveDay_renumbers_witness :
    2 ≤ daysFixture.length ∧ 1 < daysFixture.length
    ∧ ((handleRemoveDay daysFixture 1).length = daysFixture.length - 1
      ∧ ((handleRemoveDay daysFixture 1).map fun d => d.dayNumber)
          = List.range' 1 (daysFixture.length - 1)
      ∧ (handleRemoveDay daysFixture 1).map clearDayNumber
          = (daysFixture.eraseIdx 1).map clearDayNumber) :=
  ⟨by decide, by decide, handleRemoveDay_renumbers daysFixture 1 (by decide) (by decide)⟩

/-- The local try/catch around one embed call is `Except.toOption`. -/
theorem tryEmbed_eq_toOption (embed : String → Except String PDFImage) (s : String) :
    tryEmbed embed s = (embed s).toOption := by
  unfold tryEmbed
  cases embed s <;> rfl

/-- The day-image loop of `embedAllImages` collects exactly the successful
embeds, in day order, skipping each failure. -/
theorem embedDayImages_go (embed : String → Except String PDFImage) :
    ∀ (days : List ItineraryDay) (acc : List (ℕ × PDFImage)),
      days.foldl
        (fun acc day =>
          match day.image with
          | some s =>
            match tryEmbed embed s with
            | some i => acc ++ [(day.dayNumber, i)]
            | none => acc
          | none => acc)
        acc
      = acc ++ (days.filterMap fun day => day.image.bind fun s =>
          (tryEmbed embed s).map fun i => (day.dayNumber, i)) := by
  intro days
  induction days with
  | nil => intro acc; simp
  | cons day rest ih =>
    intro acc
    cases himg : day.image with
    | none =>
      simp [List.filterMap_cons, himg, ih acc]
    | some s =>
      cases hemb : tryEmbed embed s with
      | none =>
        simp [List.filterMap_cons, himg, hemb, ih acc]
      | some i =>
        simp [List.filterMap_cons, himg, hemb, ih (acc ++ [(day.dayNumber, i)])]

/-- The inner per-hotel image loop collects exactly the successful embeds. -/
theorem embedHotelImagesInner_go (embed : String → Except String PDFImage) :
    ∀ (images : List String) (acc : List PDFImage),
      images.foldl
        (fun acc s =>
          match tryEmbed embed s with
          | some i => acc ++ [i]
          | none => acc)
        acc
      = acc ++ images.filterMap fun s => tryEmbed embed s := by
  intro images
  induction images with
  | nil => intro acc; simp
  | cons s rest ih =>
    intro acc
    cases hemb : tryEmbed embed s with
    | none =>
      simp [List.filterMap_cons, hemb, ih acc]
    | some i =>
      simp [List.filterMap_cons, hemb, ih (acc ++ [i])]

/-- The hotel loop of `embedAllImages`: per index, the successfully embedded
images, keeping a hotel entry only when at least one image embedded. -/
theorem embedHotelImages_go (embed : String → Except String PDFImage) :
    ∀ (hotels : List HotelStay) (acc : List (ℕ × List PDFImage)) (i : ℕ),
      (hotels.foldl
        (fun (st : List (ℕ × List PDFImage) × ℕ) hotel =>
          let imgs := hotel.images.foldl
            (fun acc s =>
              match tryEmbed embed s with
              | some i => acc ++ [i]
              | none => acc)
            []
          (if imgs.length > 0 then st.1 ++ [(st.2, imgs)] else st.1, st.2 + 1))
        (acc, i)).1
      = acc ++ (List.enumFrom i hotels).filterMap fun p =>
          (fun imgs => if imgs.length > 0 then some (p.1, imgs) else none)
            (p.2.images.filterMap fun s => tryEmbed embed s) := by
  intro hotels
  induction hotels with
  | nil => intro acc i; simp
  | cons hotel rest ih =>
    intro acc i
    have hinner := embedHotelImagesInner_go embed hotel.images []
    rw [List.nil_append] at hinner
    by_cases hlen : (hotel.images.filterMap fun s => tryEmbed embed s).length > 0
    · simp [List.enumFrom, List.filterMap_cons, hinner, hlen,
        ih (acc ++ [(i, hotel.images.filterMap fun s => tryEmbed embed s)]) (i + 1)]
    · simp [List.enumFrom, List.filterMap_cons, hinner, hlen, ih acc (i + 1)]

/-- The airline-logo loop of `embedAllImages`: the successful embeds, keyed
by flight index. -/
theorem embedAirlineLogos_go (embed : String → Except String PDFImage) :
    ∀ (flights : List FlightDetails) (acc : List (ℕ × PDFImage)) (i : ℕ),
      (flights.foldl
        (fun (st : List (ℕ × PDFImage) × ℕ) flight =>
          (match flight.airlineLogo with
           | some s =>
             match tryEmbed embed s with
             | some img => st.1 ++ [(st.2, img)]
             | none => st.1
           | none => st.1, st.2 + 1))
        (acc, i)).1
      = acc ++ (List.enumFrom i flights).filterMap fun p =>
          p.2.airlineLogo.bind fun s => (tryEmbed embed s).map fun img => (p.1, img) := by
  intro flights
  induction flights with
  | nil => intro acc i; simp
  | cons flight rest ih =>
    intro acc i
    cases hlogo : flight.airlineLogo with
    | none =>
      simp [List.enumFrom, List.filterMap_cons, hlogo, ih acc (i + 1)]
    | some s =>
      cases hemb : tryEmbed embed s with
      | none =>
        simp [List.enumFrom, List.filterMap_cons, hlogo, hemb, ih acc (i + 1)]
      | some img =>
        simp [List.enumFrom, List.filterMap_cons, hlogo, hemb, ih (acc ++ [(i, img)]) (i + 1)]

/-- C8: for every data set and every (possibly throwing) embedding oracle,
`embedAllImages` resolves with `Except.ok` — an image embed failure is never
propagated as a failure of the whole document — and the resolved record
simply omits each image whose embed failed: the hero / static / destination
images are present iff their embeds succeeded, the day images, hotel images
and airline logos are exactly the successful embeds in input order, and a
hotel entry is kept only when at least one of its images embedded. -/
theorem embedAllImages_recovers_locally (embed : String → Except String PDFImage)
    (whyChooseUsFile basicDetailsFile : Option String) (data : ItineraryData) :
    embedAllImages embed whyChooseUsFile basicDetailsFile data
      = Except.ok
        { heroImage := data.heroImage.bind fun s => (embed s).toOption
          whyChooseUsImage := whyChooseUsFile.bind fun s => (embed s).toOption
          basicDetailsTemplate := basicDetailsFile.bind fun s => (embed s).toOption
          destinationImage := data.destinationImage.bind fun s => (embed s).toOption
          dayImages := data.days.filterMap fun day => day.image.bind fun s =>
            ((embed s).toOption).map fun i => (day.dayNumber, i)
          hotelImages := (List.enumFrom 0 data.hotels).filterMap fun p =>
            (fun imgs => if imgs.length > 0 then some (p.1, imgs) else none)
              (p.2.images.filterMap fun s => (embed s).toOption)
          airlineLogos := (List.enumFrom 0 data.flights).filterMap fun p =>
            p.2.airlineLogo.bind fun s =>
              ((embed s).toOption).map fun i => (p.1, i) } := by
  have hday := embedDayImages_go embed data.days []
  rw [List.nil_append] at hday
  have hhotel := embedHotelImages_go embed data.hotels [] 0
  rw [List.nil_append] at hhotel
  have hair := embedAirlineLogos_go embed data.flights [] 0
  rw [List.nil_append] at hair
  simp only [embedAllImages, embedDayImages, embedHotelImages, embedAirlineLogos,
    pure, Except.pure, hday, hhotel, hair]
  congr 1
  simp only [EmbeddedImages.mk.injEq, tryEmbed_eq_toOption]
  cases data.heroImage <;> cases whyChooseUsFile <;> cases basicDetailsFile <;>
    cases data.destinationImage <;> simp [tryEmbed_eq_toOption]

/-- The divider gray is not the accent gold. -/
theorem gray_ne_gold : Color.mk (8/10) (8/10) (8/10) ≠ LUXURY_COLORS.gold := by
  with_unfolding_all decide

/-- `goldVerticalSegments` distributes over append. -/
theorem gvs_append (vX : ℚ) (a b : List DrawOp) :
    goldVerticalSegments vX (a ++ b)
      = goldVerticalSegments vX a ++ goldVerticalSegments vX b := by
  simp [goldVerticalSegments, List.filter_append]

/-- Text operations contribute no gold vertical segment. -/
theorem gvs_snoc_text (vX : ℚ) (ops : List DrawOp) (page : ℕ) (s : String)
    (x y sz : ℚ) (c : Color) :
    goldVerticalSegments vX (ops ++ [DrawOp.text page s x y sz c])
      = goldVerticalSegments vX ops := by
  rw [gvs_append]
  simp [goldVerticalSegments]

/-- Rectangles contribute no gold vertical segment. -/
theorem gvs_snoc_rect (vX : ℚ) (ops : List DrawOp) (page : ℕ)
    (x y w h : ℚ) (c : Option Color) :
    goldVerticalSegments vX (ops ++ [DrawOp.rect page x y w h c])
      = goldVerticalSegments vX ops := by
  rw [gvs_append]
  simp [goldVerticalSegments]

/-- Images contribute no gold vertical segment. -/
theorem gvs_snoc_image (vX : ℚ) (ops : List DrawOp) (page : ℕ) (x y w h : ℚ) :
    goldVerticalSegments vX (ops ++ [DrawOp.image page x y w h])
      = goldVerticalSegments vX ops := by
  rw [gvs_append]
  simp [goldVerticalSegments]

/-- A line stroked in a color other than gold contributes no segment. -/
theorem gvs_snoc_line_not_gold (vX : ℚ) (ops : List DrawOp) (page : ℕ)
    (x1 y1 x2 y2 : ℚ) (c : Color) (hc : c ≠ LUXURY_COLORS.gold) :
    goldVerticalSegments vX (ops ++ [DrawOp.line page x1 y1 x2 y2 c])
      = goldVerticalSegments vX ops := by
  rw [gvs_append]
  simp [goldVerticalSegments, hc]

/-- A gold line with both endpoints on `x = vX` is kept. -/
theorem gvs_snoc_line_gold (vX : ℚ) (ops : List DrawOp) (page : ℕ) (y1 y2 : ℚ) :
    goldVerticalSegments vX (ops ++ [DrawOp.line page vX y1 vX y2 LUXURY_COLORS.gold])
      = goldVerticalSegments vX ops
        ++ [DrawOp.line page vX y1 vX y2 LUXURY_COLORS.gold] := by
  rw [gvs_append]
  simp [goldVerticalSegments]

/-- A hookless `createNewPage` paints only the page background: it adds no
gold vertical segment, and stays hookless. -/
theorem createNewPage_gvs (vX : ℚ) (pm : PageManager) (h : pm.onNewPage = none) :
    goldVerticalSegments vX pm.createNewPage.ops = goldVerticalSegments vX pm.ops
    ∧ pm.createNewPage.onNewPage = none := by
  constructor
  · simp only [PageManager.createNewPage, drawPageBackground, h, List.append_nil]
    exact gvs_snoc_rect vX pm.ops pm.nextPageId 0 0 pm.pageWidth pm.pageHeight
      (some pm.backgroundColor)
  · simp [PageManager.createNewPage, h]

/-- Singleton characterizations of `goldVerticalSegments`, used to normalize
the operation logs of whole rendering stages. -/
theorem gvs_nil (vX : ℚ) : goldVerticalSegments vX [] = [] := rfl

/-- A lone text operation yields no segment. -/
theorem gvs_singleton_text (vX : ℚ) (page : ℕ) (s : String) (x y sz : ℚ) (c : Color) :
    goldVerticalSegments vX [DrawOp.text page s x y sz c] = [] := by
  simp [goldVerticalSegments]

/-- A lone rectangle yields no segment. -/
theorem gvs_singleton_rect (vX : ℚ) (page : ℕ) (x y w h : ℚ) (c : Option Color) :
    goldVerticalSegments vX [DrawOp.rect page x y w h c] = [] := by
  simp [goldVerticalSegments]

/-- A lone image yields no segment. -/
theorem gvs_singleton_image (vX : ℚ) (page : ℕ) (x y w h : ℚ) :
    goldVerticalSegments vX [DrawOp.image page x y w h] = [] := by
  simp [goldVerticalSegments]

/-- A lone non-gold line yields no segment. -/
theorem gvs_singleton_line_not_gold (vX : ℚ) (page : ℕ) (x1 y1 x2 y2 : ℚ)
    (c : Color) (hc : c ≠ LUXURY_COLORS.gold) :
    goldVerticalSegments vX [DrawOp.line page x1 y1 x2 y2 c] = [] := by
  simp [goldVerticalSegments, hc]

/-- A lone gold vertical line at `vX` is kept. -/
theorem gvs_singleton_line_gold (vX : ℚ) (page : ℕ) (y1 y2 : ℚ) :
    goldVerticalSegments vX [DrawOp.line page vX y1 vX y2 LUXURY_COLORS.gold]
      = [DrawOp.line page vX y1 vX y2 LUXURY_COLORS.gold] := by
  simp [goldVerticalSegments]

/-- The running itinerary header adds only a text operation. -/
theorem drawItineraryHeader_gvs (vX : ℚ) (fonts : FontFamily) (startX : ℚ)
    (pm : PageManager) (h : pm.onNewPage = none) :
    goldVerticalSegments vX (drawItineraryHeader fonts startX pm).ops
      = goldVerticalSegments vX pm.ops
    ∧ (drawItineraryHeader fonts startX pm).onNewPage = none
    ∧ (drawItineraryHeader fonts startX pm).currentPage = pm.currentPage := by
  refine ⟨?_, ?_, rfl⟩
  · simp [drawItineraryHeader, PageManager.moveDown, gvs_append, gvs_singleton_text]
  · simpa [drawItineraryHeader, PageManager.moveDown] using h

/-- One word of the dynamic-width renderer adds only text (and possibly a
hookless page background). -/
theorem rtdwStep_gvs (vX : ℚ) (font : PDFFont) (fontSize : ℚ) (textColor : Color)
    (x narrowWidth fullWidth imageBottomY : ℚ) (imagePageRef : ℕ) (lineSpacing : ℚ)
    (st : PageManager × ℚ × String) (word : String) (h : st.1.onNewPage = none) :
    goldVerticalSegments vX
        (renderTextWithDynamicWidthStep font fontSize textColor x narrowWidth fullWidth
          imageBottomY imagePageRef lineSpacing st word).1.ops
      = goldVerticalSegments vX st.1.ops
    ∧ (renderTextWithDynamicWidthStep font fontSize textColor x narrowWidth fullWidth
        imageBottomY imagePageRef lineSpacing st word).1.onNewPage = none := by
  simp only [renderTextWithDynamicWidthStep]
  refine ⟨?_, ?_⟩ <;> (repeat' split) <;>
    first
      | rfl
      | exact h
      | simpa [PageManager.setY] using h
      | (simp [goldVerticalSegments, PageManager.setY, PageManager.createNewPage,
          drawPageBackground, h, List.filter_append]; done)

/-- The dynamic-width fold over all words preserves the gold segments. -/
theorem rtdwFold_gvs (vX : ℚ) (font : PDFFont) (fontSize : ℚ) (textColor : Color)
    (x narrowWidth fullWidth imageBottomY : ℚ) (imagePageRef : ℕ) (lineSpacing : ℚ) :
    ∀ (words : List String) (st : PageManager × ℚ × String),
      st.1.onNewPage = none →
      goldVerticalSegments vX
          (words.foldl
            (renderTextWithDynamicWidthStep font fontSize textColor x narrowWidth
              fullWidth imageBottomY imagePageRef lineSpacing) st).1.ops
        = goldVerticalSegments vX st.1.ops
      ∧ (words.foldl
          (renderTextWithDynamicWidthStep font fontSize textColor x narrowWidth
            fullWidth imageBottomY imagePageRef lineSpacing) st).1.onNewPage = none := by
  intro words
  induction words with
  | nil => intro st h; exact ⟨rfl, h⟩
  | cons w rest ih =>
    intro st h
    rw [List.foldl_cons]
    obtain ⟨hg, hn⟩ := rtdwStep_gvs vX font fontSize textColor x narrowWidth fullWidth
      imageBottomY imagePageRef lineSpacing st w h
    obtain ⟨hg2, hn2⟩ := ih (renderTextWithDynamicWidthStep font fontSize textColor x
      narrowWidth fullWidth imageBottomY imagePageRef lineSpacing st w) hn
    exact ⟨hg2.trans hg, hn2⟩

/-- `renderTextWithDynamicWidth` adds only text and page backgrounds. -/
theorem rtdw_gvs (vX : ℚ) (font : PDFFont) (fontSize : ℚ) (textColor : Color)
    (x narrowWidth fullWidth imageBottomY : ℚ) (imagePageRef : ℕ)
    (pm : PageManager) (text : String) (h : pm.onNewPage = none) :
    goldVerticalSegments vX
        (renderTextWithDynamicWidth font fontSize textColor x narrowWidth fullWidth
          imageBottomY imagePageRef pm text).1.ops
      = goldVerticalSegments vX pm.ops
    ∧ (renderTextWithDynamicWidth font fontSize textColor x narrowWidth fullWidth
        imageBottomY imagePageRef pm text).1.onNewPage = none := by
  simp only [renderTextWithDynamicWidth]
  obtain ⟨hg, hn⟩ := rtdwFold_gvs vX font fontSize textColor x narrowWidth fullWidth
    imageBottomY imagePageRef (fontSize * (199/100)) (jsSplitOnSpace text)
    (pm, pm.currentY, "") h
  refine ⟨?_, ?_⟩ <;> (repeat' split) <;>
    first
      | exact hg
      | exact hn
      | simpa using hn
      | (rw [gvs_append, hg]; simp [gvs_singleton_text]; done)

/-- One word of the dynamic-width renderer only appends operations. -/
theorem rtdwStep_ops_mem (font : PDFFont) (fontSize : ℚ) (textColor : Color)
    (x narrowWidth fullWidth imageBottomY : ℚ) (imagePageRef : ℕ) (lineSpacing : ℚ)
    (st : PageManager × ℚ × String) (word : String) (op : DrawOp)
    (hmem : op ∈ st.1.ops) :
    op ∈ (renderTextWithDynamicWidthStep font fontSize textColor x narrowWidth
      fullWidth imageBottomY imagePageRef lineSpacing st word).1.ops := by
  simp only [renderTextWithDynamicWidthStep]
  repeat' split
  all_goals
    first
      | exact hmem
      | (simp [PageManager.setY, PageManager.createNewPage, drawPageBackground,
          List.mem_append, hmem]; done)

/-- The dynamic-width word fold only appends operations. -/
theorem rtdwFold_ops_mem (font : PDFFont) (fontSize : ℚ) (textColor : Color)
    (x narrowWidth fullWidth imageBottomY : ℚ) (imagePageRef : ℕ)
    (lineSpacing : ℚ) :
    ∀ (words : List String) (st : PageManager × ℚ × String) (op : DrawOp),
      op ∈ st.1.ops →
      op ∈ (words.foldl
        (renderTextWithDynamicWidthStep font fontSize textColor x narrowWidth
          fullWidth imageBottomY imagePageRef lineSpacing) st).1.ops := by
  intro words
  induction words with
  | nil => intro st op h; exact h
  | cons w rest ih =>
    intro st op h
    rw [List.foldl_cons]
    exact ih _ op (rtdwStep_ops_mem font fontSize textColor x narrowWidth fullWidth
      imageBottomY imagePageRef lineSpacing st w op h)

/-- `renderTextWithDynamicWidth` only appends operations. -/
theorem rtdw_ops_mem (font : PDFFont) (fontSize : ℚ) (textColor : Color)
    (x narrowWidth fullWidth imageBottomY : ℚ) (imagePageRef : ℕ)
    (pm : PageManager) (text : String) (op : DrawOp) (hmem : op ∈ pm.ops) :
    op ∈ (renderTextWithDynamicWidth font fontSize textColor x narrowWidth fullWidth
      imageBottomY imagePageRef pm text).1.ops := by
  simp only [renderTextWithDynamicWidth]
  have h := rtdwFold_ops_mem font fontSize textColor x narrowWidth fullWidth
    imageBottomY imagePageRef (fontSize * (199/100)) (jsSplitOnSpace text)
    (pm, pm.currentY, "") op hmem
  split
  · simpa [List.mem_append] using Or.inl h
  · exact h

/-- `moveDown` does not touch the operation log. -/
theorem moveDown_ops (pm : PageManager) (a : ℚ) : (pm.moveDown a).ops = pm.ops := rfl

/-- `setY` does not touch the operation log. -/
theorem setY_ops (pm : PageManager) (y : ℚ) : (pm.setY y).ops = pm.ops := rfl

/-- `moveDown` keeps the `onNewPage` hook. -/
theorem moveDown_onNewPage (pm : PageManager) (a : ℚ) :
    (pm.moveDown a).onNewPage = pm.onNewPage := rfl

/-- `setY` keeps the `onNewPage` hook. -/
theorem setY_onNewPage (pm : PageManager) (y : ℚ) :
    (pm.setY y).onNewPage = pm.onNewPage := rfl

/-- `moveDown` keeps the current page handle. -/
theorem moveDown_currentPage (pm : PageManager) (a : ℚ) :
    (pm.moveDown a).currentPage = pm.currentPage := rfl

/-- `setY` keeps the current page handle. -/
theorem setY_currentPage (pm : PageManager) (y : ℚ) :
    (pm.setY y).currentPage = pm.currentPage := rfl

set_option maxHeartbeats 1600000 in
/-- The post-check part of a subheading block only appends operations. -/
theorem renderSubheadingTail_ops_mem (fonts : FontFamily) (textColor : Color)
    (leftX leftColumnWidth fullTextWidth imageBottomY : ℚ) (imagePageRef : ℕ)
    (sh : DaySubheading) (pm1 : PageManager) (op : DrawOp) (hmem : op ∈ pm1.ops) :
    op ∈ (renderSubheadingTail fonts textColor leftX leftColumnWidth fullTextWidth
      imageBottomY imagePageRef sh pm1).ops := by
  simp only [renderSubheadingTail, moveDown_ops, setY_ops, apply_ite PageManager.ops]
  split
  · exact rtdw_ops_mem _ _ _ _ _ _ _ _ _ _ op (List.mem_append_left _ hmem)
  · exact List.mem_append_left _ hmem

/-- The pagination branch of a subheading block (header redraw plus
"(continued)" marker) adds no gold vertical segment and stays hookless,
provided the running header itself does. -/
theorem renderSubheadingMarker_gvs (vX : ℚ) (drawHeader : PageManager → PageManager)
    (dayNumber : ℕ) (leftX : ℚ) (pmc : PageManager)
    (hd : ∀ q : PageManager, q.onNewPage = none →
      goldVerticalSegments vX (drawHeader q).ops = goldVerticalSegments vX q.ops
      ∧ (drawHeader q).onNewPage = none ∧ (drawHeader q).currentPage = q.currentPage)
    (h : pmc.onNewPage = none) :
    goldVerticalSegments vX (renderSubheadingMarker drawHeader dayNumber leftX pmc).ops
      = goldVerticalSegments vX pmc.ops
    ∧ (renderSubheadingMarker drawHeader dayNumber leftX pmc).onNewPage = none := by
  obtain ⟨hg, hn, -⟩ := hd pmc h
  constructor
  · exact (gvs_snoc_text vX (drawHeader pmc).ops (drawHeader pmc).currentPage
      ("Day " ++ toString dayNumber ++ " (continued)") leftX (drawHeader pmc).currentY
      10 LUXURY_COLORS.gold).trans hg
  · exact hn

set_option maxHeartbeats 2000000 in
/-- The post-check part of a subheading block adds only text and hookless
page backgrounds. -/
theorem renderSubheadingTail_gvs (vX : ℚ) (fonts : FontFamily) (textColor : Color)
    (leftX leftColumnWidth fullTextWidth imageBottomY : ℚ) (imagePageRef : ℕ)
    (sh : DaySubheading) (pm1 : PageManager) (h : pm1.onNewPage = none) :
    goldVerticalSegments vX (renderSubheadingTail fonts textColor leftX leftColumnWidth
        fullTextWidth imageBottomY imagePageRef sh pm1).ops
      = goldVerticalSegments vX pm1.ops
    ∧ (renderSubheadingTail fonts textColor leftX leftColumnWidth fullTextWidth
        imageBottomY imagePageRef sh pm1).onNewPage = none := by
  obtain ⟨hg, hn⟩ := rtdw_gvs vX fonts.body 10 textColor leftX leftColumnWidth
    fullTextWidth imageBottomY imagePageRef
    (PageManager.moveDown { pm1 with ops := pm1.ops ++
      [DrawOp.text pm1.currentPage (sanitizeTextForPdf sh.title) leftX pm1.currentY 10
        textColor] } 15)
    (sanitizeTextForPdf sh.description) h
  have hsnoc := gvs_snoc_text vX pm1.ops pm1.currentPage (sanitizeTextForPdf sh.title)
    leftX pm1.currentY 10 textColor
  simp only [renderSubheadingTail]
  constructor
  · split
    · rw [moveDown_ops, setY_ops, hg, moveDown_ops]
      exact hsnoc
    · rw [moveDown_ops, moveDown_ops]
      exact hsnoc
  · split
    · rw [moveDown_onNewPage, setY_onNewPage]
      exact hn
    · rw [moveDown_onNewPage, moveDown_onNewPage]
      exact h

/-- One whole subheading block adds no gold vertical segment and stays
hookless. -/
theorem renderSubheadingStep_gvs (vX : ℚ) (fonts : FontFamily) (textColor : Color)
    (drawHeader : PageManager → PageManager) (dayNumber : ℕ)
    (leftX leftColumnWidth fullTextWidth imageBottomY : ℚ) (imagePageRef : ℕ)
    (pm : PageManager) (sh : DaySubheading)
    (hd : ∀ q : PageManager, q.onNewPage = none →
      goldVerticalSegments vX (drawHeader q).ops = goldVerticalSegments vX q.ops
      ∧ (drawHeader q).onNewPage = none ∧ (drawHeader q).currentPage = q.currentPage)
    (h : pm.onNewPage = none) :
    goldVerticalSegments vX (renderSubheadingStep fonts textColor drawHeader dayNumber
        leftX leftColumnWidth fullTextWidth imageBottomY imagePageRef pm sh).ops
      = goldVerticalSegments vX pm.ops
    ∧ (renderSubheadingStep fonts textColor drawHeader dayNumber leftX leftColumnWidth
        fullTextWidth imageBottomY imagePageRef pm sh).onNewPage = none := by
  simp only [renderSubheadingStep, PageManager.checkAndCreateNewPage]
  split
  · obtain ⟨hcg, hcn⟩ := createNewPage_gvs vX pm h
    obtain ⟨hmg, hmn⟩ := renderSubheadingMarker_gvs vX drawHeader dayNumber leftX
      pm.createNewPage hd hcn
    obtain ⟨htg, htn⟩ := renderSubheadingTail_gvs vX fonts textColor leftX
      leftColumnWidth fullTextWidth imageBottomY imagePageRef sh
      (renderSubheadingMarker drawHeader dayNumber leftX pm.createNewPage) hmn
    exact ⟨(htg.trans hmg).trans hcg, htn⟩
  · obtain ⟨htg, htn⟩ := renderSubheadingTail_gvs vX fonts textColor leftX
      leftColumnWidth fullTextWidth imageBottomY imagePageRef sh pm h
    exact ⟨htg, htn⟩

/-- Folding subheading blocks over a day adds no gold vertical segment and
stays hookless. -/
theorem subheadingFold_gvs (vX : ℚ) (fonts : FontFamily) (textColor : Color)
    (drawHeader : PageManager → PageManager) (dayNumber : ℕ)
    (leftX leftColumnWidth fullTextWidth imageBottomY : ℚ) (imagePageRef : ℕ)
    (hd : ∀ q : PageManager, q.onNewPage = none →
      goldVerticalSegments vX (drawHeader q).ops = goldVerticalSegments vX q.ops
      ∧ (drawHeader q).onNewPage = none ∧ (drawHeader q).currentPage = q.currentPage) :
    ∀ (shs : List DaySubheading) (pm : PageManager), pm.onNewPage = none →
      goldVerticalSegments vX (shs.foldl
          (renderSubheadingStep fonts textColor drawHeader dayNumber leftX
            leftColumnWidth fullTextWidth imageBottomY imagePageRef) pm).ops
        = goldVerticalSegments vX pm.ops
      ∧ (shs.foldl
          (renderSubheadingStep fonts textColor drawHeader dayNumber leftX
            leftColumnWidth fullTextWidth imageBottomY imagePageRef) pm).onNewPage
          = none := by
  intro shs
  induction shs with
  | nil => intro pm h; exact ⟨rfl, h⟩
  | cons sh rest ih =>
    intro pm h
    rw [List.foldl_cons]
    obtain ⟨hg, hn⟩ := renderSubheadingStep_gvs vX fonts textColor drawHeader dayNumber
      leftX leftColumnWidth fullTextWidth imageBottomY imagePageRef pm sh hd h
    obtain ⟨hg2, hn2⟩ := ih (renderSubheadingStep fonts textColor drawHeader dayNumber
      leftX leftColumnWidth fullTextWidth imageBottomY imagePageRef pm sh) hn
    exact ⟨hg2.trans hg, hn2⟩

/-- The state a day starts in adds no gold vertical segment and stays
hookless. -/
theorem dayStartState_gvs (vX : ℚ) (drawHeader : PageManager → PageManager)
    (isFirstDay : Bool) (pm0 : PageManager)
    (hd : ∀ q : PageManager, q.onNewPage = none →
      goldVerticalSegments vX (drawHeader q).ops = goldVerticalSegments vX q.ops
      ∧ (drawHeader q).onNewPage = none ∧ (drawHeader q).currentPage = q.currentPage)
    (h : pm0.onNewPage = none) :
    goldVerticalSegments vX (dayStartState drawHeader isFirstDay pm0).ops
      = goldVerticalSegments vX pm0.ops
    ∧ (dayStartState drawHeader isFirstDay pm0).onNewPage = none := by
  simp only [dayStartState]
  split
  · exact ⟨rfl, h⟩
  · obtain ⟨hcg, hcn⟩ := createNewPage_gvs vX pm0 h
    obtain ⟨hg, hn, -⟩ := hd pm0.createNewPage hcn
    exact ⟨hg.trans hcg, hn⟩

/-- The gold day bar and day label add no gold vertical segment (the bar is
a filled rectangle, not a stroked line) and keep the hook state. -/
theorem renderDayBadge_gvs (vX : ℚ) (fonts : FontFamily) (day : ItineraryDay)
    (startX : ℚ) (pmA : PageManager) (h : pmA.onNewPage = none) :
    goldVerticalSegments vX (renderDayBadge fonts day startX pmA).1.ops
      = goldVerticalSegments vX pmA.ops
    ∧ (renderDayBadge fonts day startX pmA).1.onNewPage = none := by
  constructor
  · simp only [renderDayBadge, moveDown_ops]
    rw [gvs_snoc_text, gvs_snoc_rect]
  · exact h

/-- `renderDayBadge` stamps the gold bar 20 points below the incoming
cursor. -/
theorem renderDayBadge_snd (fonts : FontFamily) (day : ItineraryDay)
    (startX : ℚ) (pmA : PageManager) :
    (renderDayBadge fonts day startX pmA).2 = pmA.currentY - 20 := rfl

/-- The day title and the subheadings/activities body add no gold vertical
segment and stay hookless. -/
theorem renderDayBody_gvs (vX : ℚ) (fonts : FontFamily) (day : ItineraryDay)
    (textColor : Color) (drawHeader : PageManager → PageManager)
    (leftX imageBottomY : ℚ) (imagePageRef : ℕ) (pmD : PageManager)
    (hd : ∀ q : PageManager, q.onNewPage = none →
      goldVerticalSegments vX (drawHeader q).ops = goldVerticalSegments vX q.ops
      ∧ (drawHeader q).onNewPage = none ∧ (drawHeader q).currentPage = q.currentPage)
    (h : pmD.onNewPage = none) :
    goldVerticalSegments vX (renderDayBody fonts day textColor drawHeader leftX
        imageBottomY imagePageRef pmD).ops
      = goldVerticalSegments vX pmD.ops
    ∧ (renderDayBody fonts day textColor drawHeader leftX imageBottomY imagePageRef
        pmD).onNewPage = none := by
  have hsnoc := gvs_snoc_text vX pmD.ops pmD.currentPage (sanitizeTextForPdf day.title)
    leftX pmD.currentY 10 textColor
  obtain ⟨hfg, hfn⟩ := subheadingFold_gvs vX fonts textColor drawHeader day.dayNumber
    leftX 216 (216 + 26 + 225) imageBottomY imagePageRef hd day.subheadings
    (PageManager.moveDown { pmD with ops := pmD.ops ++
      [DrawOp.text pmD.currentPage (sanitizeTextForPdf day.title) leftX pmD.currentY 10
        textColor] } 20) h
  obtain ⟨hrg, hrn⟩ := rtdw_gvs vX fonts.body 10 textColor leftX 216 (216 + 26 + 225)
    imageBottomY imagePageRef
    (PageManager.moveDown { pmD with ops := pmD.ops ++
      [DrawOp.text pmD.currentPage (sanitizeTextForPdf day.title) leftX pmD.currentY 10
        textColor] } 20)
    (sanitizeTextForPdf day.activities) h
  simp only [renderDayBody]
  constructor
  · split
    · rw [hfg, moveDown_ops]
      exact hsnoc
    · split
      · rw [setY_ops, hrg, moveDown_ops]
        exact hsnoc
      · rw [moveDown_ops]
        exact hsnoc
  · split
    · exact hfn
    · split
      · rw [setY_onNewPage]
        exact hrn
      · rw [moveDown_onNewPage]
        exact h

/-- The hotel line adds no gold vertical segment and stays hookless. -/
theorem renderDayHotel_gvs (vX : ℚ) (day : ItineraryDay) (textColor : Color)
    (drawHeader : PageManager → PageManager) (leftX : ℚ) (pmH : PageManager)
    (hd : ∀ q : PageManager, q.onNewPage = none →
      goldVerticalSegments vX (drawHeader q).ops = goldVerticalSegments vX q.ops
      ∧ (drawHeader q).onNewPage = none ∧ (drawHeader q).currentPage = q.currentPage)
    (h : pmH.onNewPage = none) :
    goldVerticalSegments vX (renderDayHotel day textColor drawHeader leftX pmH).ops
      = goldVerticalSegments vX pmH.ops
    ∧ (renderDayHotel day textColor drawHeader leftX pmH).onNewPage = none := by
  simp only [renderDayHotel, PageManager.checkAndCreateNewPage]
  split
  · split
    · obtain ⟨hcg, hcn⟩ := createNewPage_gvs vX pmH h
      obtain ⟨hhg, hhn, -⟩ := hd pmH.createNewPage hcn
      constructor
      · rw [moveDown_ops]
        exact (gvs_snoc_text vX (drawHeader pmH.createNewPage).ops
          (drawHeader pmH.createNewPage).currentPage
          (sanitizeTextForPdf day.hotel).toUpper leftX
          (drawHeader pmH.createNewPage).currentY 10 textColor).trans (hhg.trans hcg)
      · exact hhn
    · constructor
      · rw [moveDown_ops]
        exact gvs_snoc_text vX pmH.ops pmH.currentPage
          (sanitizeTextForPdf day.hotel).toUpper leftX pmH.currentY 10 textColor
      · exact h
  · exact ⟨rfl, h⟩

/-- The right-column image adds no gold vertical segment and keeps both the
hook state and the current page. -/
theorem renderDayImage_gvs (vX : ℚ) (image : Option PDFImage)
    (rightX imageStartY : ℚ) (imagePageRef : ℕ) (pmI : PageManager)
    (h : pmI.onNewPage = none) :
    goldVerticalSegments vX
        (renderDayImage image rightX imageStartY imagePageRef pmI).ops
      = goldVerticalSegments vX pmI.ops
    ∧ (renderDayImage image rightX imageStartY imagePageRef pmI).onNewPage = none
    ∧ (renderDayImage image rightX imageStartY imagePageRef pmI).currentPage
        = pmI.currentPage := by
  cases image with
  | none => exact ⟨rfl, h, rfl⟩
  | some img =>
    refine ⟨?_, h, rfl⟩
    exact gvs_snoc_image vX pmI.ops imagePageRef rightX
      (imageStartY - img.height * min (225 / img.width) (223 / img.height))
      (img.width * min (225 / img.width) (223 / img.height))
      (img.height * min (225 / img.width) (223 / img.height))

/-- The closing block never changes the current page. -/
theorem renderDayClose_currentPage (startX goldBarY : ℚ)
    (goldBarPage imagePageRef : ℕ) (imageBottomY : ℚ) (isLastDay : Bool)
    (pmJ : PageManager) :
    (renderDayClose startX goldBarY goldBarPage imagePageRef imageBottomY isLastDay
      pmJ).currentPage = pmJ.currentPage := by
  simp only [renderDayClose]
  repeat' split
  all_goals rfl

/-- When the cursor ends on a different page from the gold bar (the day
overflowed), the closing block draws the rule as a single segment on the
gold bar's page, from the bar down to y = 60 — no segment is drawn on the
continuation page. -/
theorem renderDayClose_gvs_overflow (startX goldBarY : ℚ)
    (goldBarPage imagePageRef : ℕ) (imageBottomY : ℚ) (isLastDay : Bool)
    (pmJ : PageManager) (hp : pmJ.currentPage ≠ goldBarPage) :
    goldVerticalSegments (startX + 10)
        (renderDayClose startX goldBarY goldBarPage imagePageRef imageBottomY isLastDay
          pmJ).ops
      = goldVerticalSegments (startX + 10) pmJ.ops
        ++ [DrawOp.line goldBarPage (startX + 10) goldBarY (startX + 10) 60
            LUXURY_COLORS.gold] := by
  simp only [renderDayClose, moveDown_ops, setY_ops, moveDown_currentPage,
    setY_currentPage, apply_ite PageManager.ops, apply_ite PageManager.currentPage,
    ite_self]
  rw [if_neg hp, gvs_snoc_line_gold]
  split
  · rw [gvs_snoc_line_not_gold _ _ _ _ _ _ _ _ gray_ne_gold]
  · rfl

/-- When the pre-check of a subheading block paginates, the block stamps the
"Day N (continued)" marker on the fresh page (as positioned by the running
header). -/
theorem renderSubheadingStep_marker_mem (fonts : FontFamily) (textColor : Color)
    (drawHeader : PageManager → PageManager) (dayNumber : ℕ)
    (leftX leftColumnWidth fullTextWidth imageBottomY : ℚ) (imagePageRef : ℕ)
    (pmS : PageManager) (sh : DaySubheading)
    (hcheck : (pmS.checkAndCreateNewPage (subheadingRequiredHeight fonts
      leftColumnWidth fullTextWidth imageBottomY imagePageRef pmS sh)).2 = true) :
    DrawOp.text (drawHeader pmS.createNewPage).currentPage
        ("Day " ++ toString dayNumber ++ " (continued)") leftX
        (drawHeader pmS.createNewPage).currentY 10 LUXURY_COLORS.gold
      ∈ (renderSubheadingStep fonts textColor drawHeader dayNumber leftX
          leftColumnWidth fullTextWidth imageBottomY imagePageRef pmS sh).ops := by
  unfold PageManager.checkAndCreateNewPage at hcheck
  simp only [renderSubheadingStep, PageManager.checkAndCreateNewPage]
  split
  · apply renderSubheadingTail_ops_mem
    show _ ∈ (renderSubheadingMarker drawHeader dayNumber leftX pmS.createNewPage).ops
    simp only [renderSubheadingMarker, moveDown_ops]
    exact List.mem_append_right _ (List.mem_singleton.mpr rfl)
  · rename_i hc
    rw [if_neg hc] at hcheck
    exact absurd hcheck (by simp)

/-- C6 (corrected): when a day's content overflows onto a continuation page
(the final cursor page differs from the page the day started on), the gold
vertical accent rule is drawn as a SINGLE segment, on the page holding the
day badge, from the gold bar (20 points below the day's starting cursor)
down to the fixed ordinate y = 60 — no second segment is resumed on the
continuation page, since the whole rest of the day (header redraws, marker,
title, wrapped text, page backgrounds, hotel line, image, gray divider)
contributes no gold vertical stroke at the rule's abscissa. The half of the
claim that does hold: whenever a subheading's pre-check paginates, the
continuation page receives the "Day N (continued)" marker. -/
theorem itineraryDay_overflow_single_gold_rule (fonts : FontFamily)
    (day : ItineraryDay) (image : Option PDFImage) (startX : ℚ) (textColor : Color)
    (isLastDay isFirstDay : Bool) (drawHeader : PageManager → PageManager)
    (pm0 : PageManager)
    (hd : ∀ q : PageManager, q.onNewPage = none →
      goldVerticalSegments (startX + 10) (drawHeader q).ops
        = goldVerticalSegments (startX + 10) q.ops
      ∧ (drawHeader q).onNewPage = none ∧ (drawHeader q).currentPage = q.currentPage)
    (hHook : pm0.onNewPage = none)
    (hOverflow : (renderPaginatedItineraryDay fonts day image startX textColor isLastDay
        drawHeader isFirstDay pm0).1.currentPage
      ≠ (dayStartState drawHeader isFirstDay pm0).currentPage) :
    goldVerticalSegments (startX + 10)
        (renderPaginatedItineraryDay fonts day image startX textColor isLastDay
          drawHeader isFirstDay pm0).1.ops
      = goldVerticalSegments (startX + 10) pm0.ops
        ++ [DrawOp.line (dayStartState drawHeader isFirstDay pm0).currentPage
            (startX + 10) ((dayStartState drawHeader isFirstDay pm0).currentY - 20)
            (startX + 10) 60 LUXURY_COLORS.gold]
    ∧ ∀ (lw fw iby : ℚ) (ipr : ℕ) (pmS : PageManager) (sh : DaySubheading),
        (pmS.checkAndCreateNewPage (subheadingRequiredHeight fonts lw fw iby ipr
          pmS sh)).2 = true →
        DrawOp.text (drawHeader pmS.createNewPage).currentPage
            ("Day " ++ toString day.dayNumber ++ " (continued)") (startX + 27)
            (drawHeader pmS.createNewPage).currentY 10 LUXURY_COLORS.gold
          ∈ (renderSubheadingStep fonts textColor drawHeader day.dayNumber (startX + 27)
              lw fw iby ipr pmS sh).ops := by
  constructor
  · simp only [renderPaginatedItineraryDay] at hOverflow ⊢
    set pmA := dayStartState drawHeader isFirstDay pm0 with hA
    set badge := renderDayBadge fonts day startX pmA with hB
    set pmD := badge.1 with hD
    set pmG := renderDayBody fonts day textColor drawHeader (startX + 27)
      (pmD.currentY - 223) pmD.currentPage pmD with hG
    set pmI := renderDayHotel day textColor drawHeader (startX + 27) (pmG.moveDown 10)
      with hI
    set pmJ := renderDayImage image (startX + 27 + 216 + 26) pmD.currentY
      pmD.currentPage pmI with hJ
    have hp : pmJ.currentPage ≠ pmA.currentPage := by
      rw [renderDayClose_currentPage] at hOverflow
      exact hOverflow
    obtain ⟨hag, han⟩ := dayStartState_gvs (startX + 10) drawHeader isFirstDay pm0 hd
      hHook
    rw [← hA] at hag han
    obtain ⟨hbg, hbn⟩ := renderDayBadge_gvs (startX + 10) fonts day startX pmA han
    rw [← hB, ← hD] at hbg hbn
    obtain ⟨hgg, hgn⟩ := renderDayBody_gvs (startX + 10) fonts day textColor drawHeader
      (startX + 27) (pmD.currentY - 223) pmD.currentPage pmD hd hbn
    rw [← hG] at hgg hgn
    obtain ⟨hig, hin⟩ := renderDayHotel_gvs (startX + 10) day textColor drawHeader
      (startX + 27) (pmG.moveDown 10) hd (by rw [moveDown_onNewPage]; exact hgn)
    rw [← hI] at hig hin
    obtain ⟨hjg, hjn, -⟩ := renderDayImage_gvs (startX + 10) image
      (startX + 27 + 216 + 26) pmD.currentY pmD.currentPage pmI hin
    rw [← hJ] at hjg
    rw [renderDayClose_gvs_overflow startX badge.2 pmA.currentPage pmD.currentPage
      (pmD.currentY - 223) isLastDay pmJ hp]
    rw [hjg, hig, moveDown_ops, hgg, hbg, hag, hB, renderDayBadge_snd]
  · intro lw fw iby ipr pmS sh hcheck
    exact renderSubheadingStep_marker_mem fonts textColor drawHeader day.dayNumber
      (startX + 27) lw fw iby ipr pmS sh hcheck

/-- C6 counterexample to the literal two-segment claim: a concrete day that
overflows onto page 1 (the cursor finishes on the continuation page) yet
whose rendered log carries exactly ONE gold vertical rule segment — on page
0, from the gold bar at y = 180 down to y = 60. No segment is resumed on the
continuation page. -/
theorem itineraryDay_two_segment_counterexample :
    (renderPaginatedItineraryDay tenFonts dayFixture none 40 LUXURY_COLORS.white true
        (drawItineraryHeader tenFonts 40) true pmSmall).1.currentPage = 1
    ∧ goldVerticalSegments (40 + 10)
        (renderPaginatedItineraryDay tenFonts dayFixture none 40 LUXURY_COLORS.white
          true (drawItineraryHeader tenFonts 40) true pmSmall).1.ops
      = [DrawOp.line 0 50 180 50 60 LUXURY_COLORS.gold] := by
  with_unfolding_all decide

/-- Witness for the single-gold-rule theorem: the overflowing fixture day
satisfies its hypotheses, and the rule it draws is the single segment the
theorem predicts. -/
theorem itineraryDay_overflow_single_gold_rule_witness :
    pmSmall.onNewPage = none
    ∧ (renderPaginatedItineraryDay tenFonts dayFixture none 40 LUXURY_COLORS.white true
        (drawItineraryHeader tenFonts 40) true pmSmall).1.currentPage
      ≠ (dayStartState (drawItineraryHeader tenFonts 40) true pmSmall).currentPage
    ∧ goldVerticalSegments (40 + 10)
        (renderPaginatedItineraryDay tenFonts dayFixture none 40 LUXURY_COLORS.white
          true (drawItineraryHeader tenFonts 40) true pmSmall).1.ops
      = goldVerticalSegments (40 + 10) pmSmall.ops
        ++ [DrawOp.line (dayStartState (drawItineraryHeader tenFonts 40) true
            pmSmall).currentPage (40 + 10)
            ((dayStartState (drawItineraryHeader tenFonts 40) true pmSmall).currentY
              - 20) (40 + 10) 60 LUXURY_COLORS.gold] :=
  ⟨rfl, by with_unfolding_all decide,
    (itineraryDay_overflow_single_gold_rule tenFonts dayFixture none 40
      LUXURY_COLORS.white true true (drawItineraryHeader tenFonts 40) pmSmall
      (fun q hq => drawItineraryHeader_gvs (40 + 10) tenFonts 40 q hq)
      rfl (by with_unfolding_all decide)).1⟩
